import Mathlib

set_option maxRecDepth 40000

/-!
A shallow embedding of the WebSocket framing core of
`octowebsocket-client` (`src/octowebsocket/_abnf.py`) in Lean 4, together
with theorems settling the specification claims about it.

Modelling conventions:
* machine bytes are `Nat` values, with `< 256` bounds carried as hypotheses
  where they matter;
* Python byte strings / bytearrays are `List Nat`;
* Python exceptions are an explicit `WsError` sum carried through `Except`;
* Python truthiness of `Optional[int]` values is made explicit
  (`None` and `0` are falsy);
* the random mask key obtained from `get_mask_key(4)` (`os.urandom`) is an
  explicit argument of `format`, so that the encoder is deterministic;
* `_mask` is embedded exactly as the source computes it on a little-endian
  host: both operands are turned into integers via little-endian
  `int.from_bytes`, XOR-ed, and serialised back with `int.to_bytes`.
-/

namespace OctoWS

/-- The exceptions the framing core can raise: `WebSocketProtocolException`,
`WebSocketPayloadException`, the connection-closed error surfaced by the
byte source at end-of-stream, and Python `ValueError`. -/
inductive WsError where
  | protocolErr (msg : String)
  | payloadErr (msg : String)
  | connClosed
  | valueErr (msg : String)
  deriving DecidableEq, Repr

instance {ε α : Type} [DecidableEq ε] [DecidableEq α] : DecidableEq (Except ε α) :=
  fun x y =>
    match x, y with
    | .ok a, .ok b =>
      if h : a = b then .isTrue (by rw [h]) else .isFalse (by simp [h])
    | .error a, .error b =>
      if h : a = b then .isTrue (by rw [h]) else .isFalse (by simp [h])
    | .ok _, .error _ => .isFalse (by simp)
    | .error _, .ok _ => .isFalse (by simp)

/-! ## Byte-level helpers -/

/-- Python `int.from_bytes(bs, "little")`. -/
def fromBytesLE : List Nat → Nat
  | [] => 0
  | b :: bs => b + 256 * fromBytesLE bs

/-- Python `n.to_bytes(len, "little")`: little-endian serialisation to exactly
`len` bytes. -/
def toBytesLE : Nat → Nat → List Nat
  | 0, _ => []
  | len + 1, n => n % 256 :: toBytesLE len (n / 256)

/-- Python `struct.pack` of an unsigned big-endian integer into `len` bytes
(`"!H"` for `len = 2`, `"!Q"` for `len = 8`). -/
def packBE : Nat → Nat → List Nat
  | 0, _ => []
  | len + 1, n => packBE len (n / 256) ++ [n % 256]

/-- Python `struct.unpack` of an unsigned big-endian integer. -/
def unpackBE (bs : List Nat) : Nat :=
  bs.foldl (fun acc b => acc * 256 + b) 0

/-- The repeated-key byte pattern
`mask_value * (datalen // 4) + mask_value[: datalen % 4]` built inside
`_mask`. -/
def maskPattern (mask_value : List Nat) (datalen : Nat) : List Nat :=
  (List.replicate (datalen / 4) mask_value).flatten ++ mask_value.take (datalen % 4)

/-- The function `_mask` (the pure-Python fallback): both byte strings become integers in
native (little-endian) byte order, are XOR-ed, and the result is serialised
back to `len(data_value)` bytes. -/
def pyMask (mask_value data_value : List Nat) : List Nat :=
  toBytesLE data_value.length
    (fromBytesLE data_value ^^^ fromBytesLE (maskPattern mask_value data_value.length))

/-! ## UTF-8 validation

`validate_utf8` lives in `octowebsocket/_utils.py`, which is not part of the
sources given; it is modelled from the spec. -/

/-- A UTF-8 continuation byte, `0x80..0xBF`. -/
def isUtf8Cont (b : Nat) : Bool := 0x80 ≤ b && b ≤ 0xBF

/-- Modelled from the spec: `validate_utf8` of `octowebsocket/_utils.py` is
not under the given sources.  Per spec §4.5 it must implement RFC 3629
precisely — reject overlong encodings, the surrogate range
U+D800..U+DFFF, and codepoints above U+10FFFF — via a byte-driven DFA.
This is the standard RFC 3629 shortest-form byte classification. -/
def validate_utf8 : List Nat → Bool
  | [] => true
  | b :: rest =>
    if b ≤ 0x7F then validate_utf8 rest
    else if 0xC2 ≤ b && b ≤ 0xDF then
      match rest with
      | c1 :: r => isUtf8Cont c1 && validate_utf8 r
      | [] => false
    else if b = 0xE0 then
      match rest with
      | c1 :: c2 :: r => (0xA0 ≤ c1 && c1 ≤ 0xBF) && isUtf8Cont c2 && validate_utf8 r
      | _ => false
    else if (0xE1 ≤ b && b ≤ 0xEC) || b = 0xEE || b = 0xEF then
      match rest with
      | c1 :: c2 :: r => isUtf8Cont c1 && isUtf8Cont c2 && validate_utf8 r
      | _ => false
    else if b = 0xED then
      match rest with
      | c1 :: c2 :: r => (0x80 ≤ c1 && c1 ≤ 0x9F) && isUtf8Cont c2 && validate_utf8 r
      | _ => false
    else if b = 0xF0 then
      match rest with
      | c1 :: c2 :: c3 :: r =>
        (0x90 ≤ c1 && c1 ≤ 0xBF) && isUtf8Cont c2 && isUtf8Cont c3 && validate_utf8 r
      | _ => false
    else if 0xF1 ≤ b && b ≤ 0xF3 then
      match rest with
      | c1 :: c2 :: c3 :: r =>
        isUtf8Cont c1 && isUtf8Cont c2 && isUtf8Cont c3 && validate_utf8 r
      | _ => false
    else if b = 0xF4 then
      match rest with
      | c1 :: c2 :: c3 :: r =>
        (0x80 ≤ c1 && c1 ≤ 0x8F) && isUtf8Cont c2 && isUtf8Cont c3 && validate_utf8 r
      | _ => false
    else false

/-! ## The ABNF frame class -/

-- closing frame status codes.
def STATUS_NORMAL : Nat := 1000

def STATUS_GOING_AWAY : Nat := 1001

def STATUS_PROTOCOL_ERROR : Nat := 1002

def STATUS_UNSUPPORTED_DATA_TYPE : Nat := 1003

def STATUS_STATUS_NOT_AVAILABLE : Nat := 1005

def STATUS_ABNORMAL_CLOSED : Nat := 1006

def STATUS_INVALID_PAYLOAD : Nat := 1007

def STATUS_POLICY_VIOLATION : Nat := 1008

def STATUS_MESSAGE_TOO_BIG : Nat := 1009

def STATUS_INVALID_EXTENSION : Nat := 1010

def STATUS_UNEXPECTED_CONDITION : Nat := 1011

def STATUS_SERVICE_RESTART : Nat := 1012

def STATUS_TRY_AGAIN_LATER : Nat := 1013

def STATUS_BAD_GATEWAY : Nat := 1014

def STATUS_TLS_HANDSHAKE_ERROR : Nat := 1015

def VALID_CLOSE_STATUS : List Nat :=
  [STATUS_NORMAL, STATUS_GOING_AWAY, STATUS_PROTOCOL_ERROR,
   STATUS_UNSUPPORTED_DATA_TYPE, STATUS_INVALID_PAYLOAD,
   STATUS_POLICY_VIOLATION, STATUS_MESSAGE_TOO_BIG, STATUS_INVALID_EXTENSION,
   STATUS_UNEXPECTED_CONDITION, STATUS_SERVICE_RESTART,
   STATUS_TRY_AGAIN_LATER, STATUS_BAD_GATEWAY]

def OPCODE_CONT : Nat := 0x0

def OPCODE_TEXT : Nat := 0x1

def OPCODE_BINARY : Nat := 0x2

def OPCODE_CLOSE : Nat := 0x8

def OPCODE_PING : Nat := 0x9

def OPCODE_PONG : Nat := 0xA

def OPCODES : List Nat :=
  [OPCODE_CONT, OPCODE_TEXT, OPCODE_BINARY, OPCODE_CLOSE, OPCODE_PING, OPCODE_PONG]

-- data length threshold.
def LENGTH_7 : Nat := 0x7E

def LENGTH_16 : Nat := 1 <<< 16

def LENGTH_63 : Nat := 1 <<< 63

/-- The `ABNF` frame object.  `data` is a byte buffer; the payload occupies
`data[data_start_offset_bytes : data_start_offset_bytes + data_msg_length_bytes]`. -/
structure ABNF where
  fin : Nat
  rsv1 : Nat
  rsv2 : Nat
  rsv3 : Nat
  opcode : Nat
  mask_value : Nat
  data : List Nat
  data_start_offset_bytes : Nat
  data_msg_length_bytes : Nat
  deriving DecidableEq, Repr

/-- Constructor `ABNF.__init__`: `data_start_offset_bytes` defaults to `0` and
`data_msg_length_bytes` to `len(data)` when passed as `None`. -/
def ABNF.init (fin rsv1 rsv2 rsv3 opcode mask_value : Nat) (data : List Nat)
    (data_start_offset_bytes data_msg_length_bytes : Option Nat) : ABNF :=
  { fin := fin, rsv1 := rsv1, rsv2 := rsv2, rsv3 := rsv3, opcode := opcode,
    mask_value := mask_value, data := data,
    data_start_offset_bytes := data_start_offset_bytes.getD 0,
    data_msg_length_bytes := data_msg_length_bytes.getD data.length }

/-- Static method `ABNF.create_frame` for a byte payload (the str branch UTF-8-encodes
first and is outside the byte-level model). -/
def ABNF.create_frame (data : List Nat) (opcode : Nat) (fin : Nat := 1)
    (use_frame_mask : Bool := true)
    (data_start_offset_bytes : Option Nat := none)
    (data_msg_length_bytes : Option Nat := none) : ABNF :=
  ABNF.init fin 0 0 0 opcode (if use_frame_mask then 1 else 0) data
    data_start_offset_bytes data_msg_length_bytes

/-- Static method `ABNF._is_valid_close_status`. -/
def ABNF._is_valid_close_status (code : Nat) : Bool :=
  code ∈ VALID_CLOSE_STATUS || (3000 ≤ code && code < 5000)

/-- Method `ABNF.validate`.  Python truthiness of the int fields is explicit
(`if self.rsv1 or ...` tests `≠ 0`, `not self.fin` tests `= 0`). -/
def ABNF.validate (f : ABNF) (skip_utf8_validation : Bool) : Except WsError Unit :=
  if f.rsv1 ≠ 0 ∨ f.rsv2 ≠ 0 ∨ f.rsv3 ≠ 0 then
    .error (.protocolErr "rsv is not implemented, yet")
  else if f.opcode ∉ OPCODES then
    .error (.protocolErr "Invalid opcode")
  else if f.opcode = OPCODE_PING ∧ f.fin = 0 then
    .error (.protocolErr "Invalid ping frame.")
  else if f.opcode = OPCODE_CLOSE then
    let l := f.data.length
    if l = 0 then .ok ()
    else if l = 1 ∨ 126 ≤ l then .error (.protocolErr "Invalid close frame.")
    else if 2 < l ∧ skip_utf8_validation = false ∧ validate_utf8 (f.data.drop 2) = false then
      .error (.protocolErr "Invalid close frame.")
    else
      let code := 256 * f.data.getD 0 0 + f.data.getD 1 0
      if ABNF._is_valid_close_status code = true then .ok ()
      else .error (.protocolErr "Invalid close opcode")
  else .ok ()

/-- Static method `ABNF.mask`, byte-string operands (the str branches latin-1-encode
first and are outside the byte-level model; `data=None` becomes `b""`,
i.e. `[]`). -/
def ABNF.mask (mask_key data : List Nat) : List Nat :=
  pyMask mask_key data

/-- Method `ABNF._get_masked`. -/
def ABNF._get_masked (f : ABNF) (mask_key : List Nat) : List Nat :=
  mask_key ++ ABNF.mask mask_key f.data

/-- The header bytes `frame_header` accumulated by `ABNF.format` before the
masking/prepend step: first byte packs fin/rsv/opcode, second byte packs the
mask bit and the 7-bit length field, followed by the extended length. -/
def ABNF.frame_header (f : ABNF) : List Nat :=
  let b0 := f.fin <<< 7 ||| f.rsv1 <<< 6 ||| f.rsv2 <<< 5 ||| f.rsv3 <<< 4 ||| f.opcode
  if f.data_msg_length_bytes < LENGTH_7 then
    [b0, f.mask_value <<< 7 ||| f.data_msg_length_bytes]
  else if f.data_msg_length_bytes < LENGTH_16 then
    [b0, f.mask_value <<< 7 ||| 0x7E] ++ packBE 2 f.data_msg_length_bytes
  else
    [b0, f.mask_value <<< 7 ||| 0x7F] ++ packBE 8 f.data_msg_length_bytes

/-- The bytearray slice assignment
`self.data[off - hl : off] = frame_header` used by `format` to write the
header into the head margin in place. -/
def writeSlice (buf : List Nat) (start : Nat) (new : List Nat) : List Nat :=
  buf.take start ++ new ++ buf.drop (start + new.length)

/-- Method `ABNF.format`.  `mask_key` stands for the bytes `get_mask_key(4)` would
draw; it is only consulted when `mask_value` is truthy.  Returns the mutated
frame object together with the returned memoryview
`data[off : off + msg_len]`, or the raised `ValueError`. -/
def ABNF.format (f : ABNF) (mask_key : List Nat) : Except WsError (ABNF × List Nat) :=
  if ¬(f.fin ∈ [0, 1] ∧ f.rsv1 ∈ [0, 1] ∧ f.rsv2 ∈ [0, 1] ∧ f.rsv3 ∈ [0, 1]) then
    .error (.valueErr "not 0 or 1")
  else if f.opcode ∉ OPCODES then
    .error (.valueErr "Invalid OPCODE")
  else if LENGTH_63 ≤ f.data_msg_length_bytes then
    .error (.valueErr "data is too long")
  else
    let header := f.frame_header
    -- If the data needs to be masked, mask it (replaces `data` by
    -- `mask_key + masked`, resets the offset, re-measures the length).
    let f1 : ABNF :=
      if f.mask_value ≠ 0 then
        let masked := f._get_masked mask_key
        { f with data := masked, data_start_offset_bytes := 0,
                 data_msg_length_bytes := masked.length }
      else f
    -- If there's enough space in the data buffer, write the frame header
    -- there without copying; otherwise copy the data to a new buffer.
    let f2 : ABNF :=
      if header.length < f1.data_start_offset_bytes then
        { f1 with
            data := writeSlice f1.data (f1.data_start_offset_bytes - header.length) header,
            data_start_offset_bytes := f1.data_start_offset_bytes - header.length,
            data_msg_length_bytes := f1.data_msg_length_bytes + header.length }
      else
        let d := header ++ f1.data
        { f1 with data := d, data_start_offset_bytes := 0,
                  data_msg_length_bytes := d.length }
    .ok (f2, (f2.data.drop f2.data_start_offset_bytes).take f2.data_msg_length_bytes)

/-! ## The frame decoder (`frame_buffer`)

`recv_strict` is modelled twice, at two levels of abstraction that are
connected by `recv_strict_chunked_full`:

* `recvStrictL` is `recv_strict` over a fully buffered in-memory byte
  source: it either returns exactly the first `n` stream bytes or surfaces
  the connection-closed error raised when the stream is exhausted early;
* `recv_strict_chunked` is the faithful read loop: per iteration it
  requests `min(131072, shortage)` bytes from the byte source, which may
  deliver any smaller non-zero amount, and the end-of-stream condition
  surfaces as `connClosed`. -/

/-- Method `recv_strict(n)` over an in-memory byte stream that delivers
everything it holds: exactly the first `n` bytes plus the remaining
stream, or the connection-closed error if the stream runs out. -/
def recvStrictL (n : Nat) (s : List Nat) : Except WsError (List Nat × List Nat) :=
  if n ≤ s.length then .ok (s.take n, s.drop n) else .error .connClosed

/-- Modelled from the spec: the byte source `read_into(buf) -> n` fills up
to `len(buf)` bytes of `buf` from the head of `stream`; the adapter bound
to `recv_into_fn` (it lives in the client core, not under the given
sources) raises the connection-closed error when a read returns 0 bytes.
`sched i` is the number of bytes the source is willing to deliver on its
`i`-th call, modelling a slow transport; a live source always delivers at
least one byte per call.

The loop body of `recv_strict`: `requests` records, per iteration, the
pair (shortage at that point, size of the read request issued). -/
def recvStrictChunkedGo (sched : Nat → Nat) (fuel : Nat) (stream : List Nat) (i : Nat)
    (shortage : Nat) (acc : List Nat) (requests : List (Nat × Nat)) :
    Except WsError (List Nat) × List (Nat × Nat) :=
  if shortage = 0 then (.ok acc, requests)
  else
    let req := min 131072 shortage
    let delivered := min req (min (sched i) stream.length)
    if delivered = 0 then (.error .connClosed, requests ++ [(shortage, req)])
    else
      match fuel with
      | 0 => (.error .connClosed, requests ++ [(shortage, req)])
      | fuel + 1 =>
        recvStrictChunkedGo sched fuel (stream.drop delivered) (i + 1)
          (shortage - delivered) (acc ++ stream.take delivered)
          (requests ++ [(shortage, req)])

/-- Method `recv_strict(bufsize)` against the chunk-delivering byte source.
The `fuel` passed to the loop is the structural-recursion bound; since
every iteration delivers at least one byte, `bufsize` iterations always
suffice (`recvStrictChunkedGo_shortage_le_fuel` below: the fuel-exhausted
branch is unreachable from this entry point), so the loop is exactly the
source's `while shortage > 0`. -/
def recv_strict_chunked (sched : Nat → Nat) (stream : List Nat) (bufsize : Nat) :
    Except WsError (List Nat) × List (Nat × Nat) :=
  recvStrictChunkedGo sched bufsize stream 0 bufsize [] []

/-- Method `frame_buffer.recv_frame` for one frame against a fully buffered byte
stream (the `header`/`length`/`mask` caching of partially parsed state only
matters across interrupted reads, which cannot happen on this source — the
phases run once in order, exactly as in the source).  Returns the decoded,
validated frame and the unconsumed rest of the stream. -/
def recv_frame (skip_utf8_validation : Bool) (s : List Nat) :
    Except WsError (ABNF × List Nat) := do
  -- Header: recv_header
  let (hb, s) ← recvStrictL 2 s
  let b1 := hb.getD 0 0
  let fin := b1 >>> 7 &&& 1
  let rsv1 := b1 >>> 6 &&& 1
  let rsv2 := b1 >>> 5 &&& 1
  let rsv3 := b1 >>> 4 &&& 1
  let opcode := b1 &&& 0xF
  let b2 := hb.getD 1 0
  let has_mask := b2 >>> 7 &&& 1
  let length_bits := b2 &&& 0x7F
  -- Frame length: recv_length
  let (length, s) ←
    if length_bits = 0x7E then
      (recvStrictL 2 s).map fun p => (unpackBE p.1, p.2)
    else if length_bits = 0x7F then
      (recvStrictL 8 s).map fun p => (unpackBE p.1, p.2)
    else pure (length_bits, s)
  -- Mask: recv_mask
  let (mask_value, s) ←
    if has_mask ≠ 0 then recvStrictL 4 s else pure ([], s)
  -- Payload
  let (payload, s) ← recvStrictL length s
  let payload := if has_mask ≠ 0 then ABNF.mask mask_value payload else payload
  let frame := ABNF.init fin rsv1 rsv2 rsv3 opcode has_mask payload none none
  let _ ← frame.validate skip_utf8_validation
  pure (frame, s)

/-! ## The message reassembler (`continuous_frame`) -/

/-- Python truthiness of `Optional[int]`: `None` and `0` are falsy. -/
def truthy : Option Nat → Bool
  | none => false
  | some k => k ≠ 0

/-- The `continuous_frame` state.  `cont_data` models the two-element list
`[opcode, data]`; a non-`None` list is always truthy. -/
structure ContinuousFrame where
  fire_cont_frame : Bool
  skip_utf8_validation : Bool
  cont_data : Option (Nat × List Nat)
  recving_frames : Option Nat
  deriving DecidableEq, Repr

/-- Constructor `continuous_frame.__init__`. -/
def ContinuousFrame.init (fire_cont_frame skip_utf8_validation : Bool) : ContinuousFrame :=
  { fire_cont_frame := fire_cont_frame, skip_utf8_validation := skip_utf8_validation,
    cont_data := none, recving_frames := none }

/-- Method `continuous_frame.validate`. -/
def ContinuousFrame.validate (cf : ContinuousFrame) (frame : ABNF) : Except WsError Unit :=
  if !truthy cf.recving_frames && frame.opcode = OPCODE_CONT then
    .error (.protocolErr "Illegal frame")
  else if truthy cf.recving_frames &&
      (frame.opcode = OPCODE_TEXT || frame.opcode = OPCODE_BINARY) then
    .error (.protocolErr "Illegal frame")
  else .ok ()

/-- Method `continuous_frame.add`. -/
def ContinuousFrame.add (cf : ContinuousFrame) (frame : ABNF) : ContinuousFrame :=
  let cf :=
    match cf.cont_data with
    | some (op, d) => { cf with cont_data := some (op, d ++ frame.data) }
    | none =>
      let cf :=
        if frame.opcode = OPCODE_TEXT || frame.opcode = OPCODE_BINARY then
          { cf with recving_frames := some frame.opcode }
        else cf
      { cf with cont_data := some (frame.opcode, frame.data) }
  if frame.fin ≠ 0 then { cf with recving_frames := none } else cf

/-- Method `continuous_frame.is_fire`. -/
def ContinuousFrame.is_fire (cf : ContinuousFrame) (frame : ABNF) : Bool :=
  frame.fin ≠ 0 || cf.fire_cont_frame

/-- Method `continuous_frame.extract`.  Here `cont_data` is cleared before the UTF-8
check, exactly as in the source; the raised `WebSocketPayloadException`
carries a fixed message (the source interpolates `repr(frame.data)`). -/
def ContinuousFrame.extract (cf : ContinuousFrame) (frame : ABNF) :
    ContinuousFrame × Except WsError (Nat × ABNF) :=
  match cf.cont_data with
  | none => (cf, .error (.valueErr "TypeError"))
  | some (op, d) =>
    let cf1 := { cf with cont_data := none }
    let frame1 := { frame with data := d }
    if !cf.fire_cont_frame && op = OPCODE_TEXT && !cf.skip_utf8_validation &&
        !validate_utf8 frame1.data then
      (cf1, .error (.payloadErr "cannot decode"))
    else (cf1, .ok (op, frame1))

/-- A control frame: CLOSE, PING or PONG opcode. -/
def isCtrlFrame (f : ABNF) : Bool :=
  f.opcode = OPCODE_CLOSE || f.opcode = OPCODE_PING || f.opcode = OPCODE_PONG

/-- Modelled from the spec: the frame-dispatch loop that feeds
`continuous_frame` lives in the client core, not under the given sources.
Per spec §4.4, data frames (CONT/TEXT/BINARY) run
`validate`/`add`/`is_fire`/`extract` on the reassembler, while control
frames are emitted `(opcode, payload)` immediately without touching the
reassembly state.  Returns the updated state and either the raised error or
the emitted message, if any. -/
def processFrame (cf : ContinuousFrame) (frame : ABNF) :
    ContinuousFrame × Except WsError (Option (Nat × List Nat)) :=
  if frame.opcode = OPCODE_CONT || frame.opcode = OPCODE_TEXT ||
      frame.opcode = OPCODE_BINARY then
    match cf.validate frame with
    | .error e => (cf, .error e)
    | .ok _ =>
      let cf := cf.add frame
      if cf.is_fire frame then
        match cf.extract frame with
        | (cf, .error e) => (cf, .error e)
        | (cf, .ok (op, fr)) => (cf, .ok (some (op, fr.data)))
      else (cf, .ok none)
  else (cf, .ok (some (frame.opcode, frame.data)))

/-- Run `processFrame` over a frame sequence, collecting the emitted
messages; a raised error aborts the run. -/
def runFrames (cf : ContinuousFrame) : List ABNF → ContinuousFrame × Except WsError (List (Nat × List Nat))
  | [] => (cf, .ok [])
  | f :: fs =>
    match processFrame cf f with
    | (cf1, .error e) => (cf1, .error e)
    | (cf1, .ok out) =>
      match runFrames cf1 fs with
      | (cf2, .error e) => (cf2, .error e)
      | (cf2, .ok outs) =>
        (cf2, .ok (match out with | none => outs | some o => o :: outs))

/-- A data frame as built by the fragmenting sender:
`ABNF(fin, 0, 0, 0, opcode, 0, data)`. -/
def mkDataFrame (opcode fin : Nat) (data : List Nat) : ABNF :=
  ABNF.init fin 0 0 0 opcode 0 data none none

/-- The fragment frames of one fragmented TEXT message: a first frame
`(TEXT, fin=0)`, continuation frames `(CONT, fin=0)`, and a final frame
`(CONT, fin=1)`. -/
def fragFrames (p0 : List Nat) (ps : List (List Nat)) (plast : List Nat) : List ABNF :=
  mkDataFrame OPCODE_TEXT 0 p0 ::
    (ps.map (mkDataFrame OPCODE_CONT 0) ++ [mkDataFrame OPCODE_CONT 1 plast])

/-- Relation `Interleave frags full`: `full` is `frags` in order with control frames
inserted at arbitrary positions. -/
inductive Interleave : List ABNF → List ABNF → Prop where
  | nil : Interleave [] []
  | frag (f : ABNF) {fs full : List ABNF} :
      Interleave fs full → Interleave (f :: fs) (f :: full)
  | ctrl (c : ABNF) {fs full : List ABNF} :
      isCtrlFrame c = true → Interleave fs full → Interleave fs (c :: full)

/-- The emissions the reassembler is expected to produce while consuming a
fragmented message whose reassembled payload is `msg`: control frames are
emitted `(opcode, payload)` at their own position, the final (`fin=1`) data
frame yields the single `(TEXT, msg)` message, non-final fragments yield
nothing. -/
def expectedOuts (msg : List Nat) : List ABNF → List (Nat × List Nat)
  | [] => []
  | f :: fs =>
    if isCtrlFrame f then (f.opcode, f.data) :: expectedOuts msg fs
    else if f.fin ≠ 0 then (OPCODE_TEXT, msg) :: expectedOuts msg fs
    else expectedOuts msg fs

/-- Whether a raised framing error is the payload error
(`WebSocketPayloadException`). -/
def isPayloadError (r : Except WsError Unit) : Bool :=
  match r with
  | .error (.payloadErr _) => true
  | _ => false

end OctoWS

namespace OctoWS

lemma toBytesLE_length (len n : Nat) : (toBytesLE len n).length = len := by
  induction len generalizing n with
  | zero => rfl
  | succ k ih => simp [toBytesLE, ih]

lemma toBytesLE_mem_lt (len n : Nat) : ∀ x ∈ toBytesLE len n, x < 256 := by
  induction len generalizing n with
  | zero => simp [toBytesLE]
  | succ k ih =>
    intro x hx
    simp only [toBytesLE, List.mem_cons] at hx
    rcases hx with h | h
    · omega
    · exact ih _ x h

lemma toBytesLE_fromBytesLE (l : List Nat) (h : ∀ b ∈ l, b < 256) :
    toBytesLE l.length (fromBytesLE l) = l := by
  induction l with
  | nil => rfl
  | cons x xs ih =>
    have hx : x < 256 := h x (List.mem_cons_self x xs)
    have h1 : (x + 256 * fromBytesLE xs) % 256 = x := by omega
    have h2 : (x + 256 * fromBytesLE xs) / 256 = fromBytesLE xs := by omega
    simp only [List.length_cons, toBytesLE, fromBytesLE, h1, h2]
    rw [ih (fun b hb => h b (List.mem_cons_of_mem x hb))]

lemma xor_byte_combine (x y A B : Nat) (hx : x < 256) (hy : y < 256) :
    (x + 256 * A) ^^^ (y + 256 * B) = (x ^^^ y) + 256 * (A ^^^ B) := by
  have h256 : (256 : Nat) = 2 ^ 8 := by norm_num
  have hx8 : x < 2 ^ 8 := by omega
  have hy8 : y < 2 ^ 8 := by omega
  have hxy8 : x ^^^ y < 2 ^ 8 := Nat.xor_lt_two_pow hx8 hy8
  have e : ∀ t s : Nat, t + 256 * s = 2 ^ 8 * s + t := by intro t s; rw [← h256]; ring
  rw [e x A, e y B, e (x ^^^ y) (A ^^^ B)]
  apply Nat.eq_of_testBit_eq
  intro i
  rw [Nat.testBit_xor, Nat.testBit_mul_pow_two_add A hx8 i,
    Nat.testBit_mul_pow_two_add B hy8 i, Nat.testBit_mul_pow_two_add (A ^^^ B) hxy8 i]
  by_cases hi : i < 8 <;> simp [hi, Nat.testBit_xor]

lemma fromBytesLE_zipWith_xor (a b : List Nat) (ha : ∀ x ∈ a, x < 256)
    (hb : ∀ x ∈ b, x < 256) (hlen : a.length = b.length) :
    fromBytesLE (List.zipWith (fun u v => u ^^^ v) a b) =
      fromBytesLE a ^^^ fromBytesLE b := by
  induction a generalizing b with
  | nil =>
    cases b with
    | nil => simp [fromBytesLE]
    | cons y ys => simp at hlen
  | cons x xs ih =>
    cases b with
    | nil => simp at hlen
    | cons y ys =>
      have hx : x < 256 := ha x (List.mem_cons_self x xs)
      have hy : y < 256 := hb y (List.mem_cons_self y ys)
      simp only [List.zipWith_cons_cons, fromBytesLE]
      rw [ih ys (fun u hu => ha u (List.mem_cons_of_mem x hu))
        (fun v hv => hb v (List.mem_cons_of_mem y hv)) (by simpa using hlen)]
      exact (xor_byte_combine x y _ _ hx hy).symm

end OctoWS

namespace OctoWS

lemma maskPattern_length (k : List Nat) (hk : k.length = 4) (n : Nat) :
    (maskPattern k n).length = n := by
  simp only [maskPattern, List.length_append, List.length_flatten, List.length_take, hk]
  have h1 : (List.replicate (n / 4) k).map List.length = List.replicate (n / 4) 4 := by
    simp [List.map_replicate, hk]
  rw [h1]
  have h2 : (List.replicate (n / 4) 4).sum = n / 4 * 4 := by
    simp [List.sum_replicate, Nat.smul_one_eq_cast, Nat.mul_comm]
  rw [h2]
  omega

end OctoWS

namespace OctoWS

lemma maskPattern_mem (k : List Nat) (n : Nat) :
    ∀ x ∈ maskPattern k n, x ∈ k := by
  intro x hx
  simp only [maskPattern, List.mem_append] at hx
  rcases hx with h | h
  · rcases List.mem_flatten.mp h with ⟨l, hl, hxl⟩
    rw [List.eq_of_mem_replicate hl] at hxl
    exact hxl
  · exact List.mem_of_mem_take h

lemma maskPattern_small (k : List Nat) (n : Nat) (h : n < 4) :
    maskPattern k n = k.take n := by
  have h1 : n / 4 = 0 := by omega
  have h2 : n % 4 = n := by omega
  simp [maskPattern, h1, h2]

lemma maskPattern_step (k : List Nat) (n : Nat) :
    maskPattern k (n + 4) = k ++ maskPattern k n := by
  have h1 : (n + 4) / 4 = n / 4 + 1 := by omega
  have h2 : (n + 4) % 4 = n % 4 := by omega
  simp [maskPattern, h1, h2, List.replicate_succ, List.flatten_cons, List.append_assoc]

lemma maskPattern_getD (k : List Nat) (hk : k.length = 4) :
    ∀ n i : Nat, i < n → (maskPattern k n).getD i 0 = k.getD (i % 4) 0 := by
  intro n
  induction n using Nat.strong_induction_on with
  | _ n ih =>
    intro i hi
    rcases Nat.lt_or_ge n 4 with hn | hn
    · rw [maskPattern_small k n hn]
      have hi4 : i % 4 = i := by omega
      rw [hi4]
      have : i < n ⊓ k.length := by omega
      rw [List.getD_eq_getElem _ _ (by simpa [List.length_take] using this)]
      rw [List.getD_eq_getElem _ _ (by omega)]
      simp [List.getElem_take]
    · obtain ⟨m, rfl⟩ : ∃ m, n = m + 4 := ⟨n - 4, by omega⟩
      rw [maskPattern_step]
      rcases Nat.lt_or_ge i 4 with hi4 | hi4
      · have him : i % 4 = i := by omega
        rw [him, List.getD_append _ _ _ _ (by omega)]
      · have : (k ++ maskPattern k m).getD i 0 = (maskPattern k m).getD (i - 4) 0 := by
          rw [List.getD_eq_getElem?_getD, List.getD_eq_getElem?_getD,
            List.getElem?_append_right (by omega), hk]
        rw [this, ih m (by omega) (i - 4) (by omega)]
        congr 1
        omega

end OctoWS

namespace OctoWS

lemma zipWith_xor_lt (a b : List Nat) (ha : ∀ x ∈ a, x < 256) (hb : ∀ x ∈ b, x < 256) :
    ∀ x ∈ List.zipWith (fun u v => u ^^^ v) a b, x < 256 := by
  induction a generalizing b with
  | nil => simp
  | cons x xs ih =>
    cases b with
    | nil => simp
    | cons y ys =>
      intro z hz
      simp only [List.zipWith_cons_cons, List.mem_cons] at hz
      rcases hz with rfl | hz
      · have hxa : x < 2 ^ 8 := by simpa using ha x (by simp)
        have hyb : y < 2 ^ 8 := by simpa using hb y (by simp)
        simpa using Nat.xor_lt_two_pow hxa hyb
      · exact ih ys (fun u hu => ha u (List.mem_cons_of_mem x hu))
          (fun v hv => hb v (List.mem_cons_of_mem y hv)) z hz

/-- On a little-endian host, `_mask` is exactly the byte-wise XOR of the
data against the repeated key pattern. -/
lemma pyMask_eq_zipWith (k d : List Nat) (hk : k.length = 4)
    (hkb : ∀ x ∈ k, x < 256) (hdb : ∀ x ∈ d, x < 256) :
    pyMask k d = List.zipWith (fun u v => u ^^^ v) d (maskPattern k d.length) := by
  have hpb : ∀ x ∈ maskPattern k d.length, x < 256 :=
    fun x hx => hkb x (maskPattern_mem k d.length x hx)
  have hplen : (maskPattern k d.length).length = d.length := maskPattern_length k hk _
  have hzlen : (List.zipWith (fun u v => u ^^^ v) d (maskPattern k d.length)).length
      = d.length := by simp [List.length_zipWith, hplen]
  unfold pyMask
  rw [← fromBytesLE_zipWith_xor d _ hdb hpb hplen.symm]
  have h3 := toBytesLE_fromBytesLE _ (zipWith_xor_lt d _ hdb hpb)
  rw [hzlen] at h3
  exact h3

lemma zipWith_xor_cancel (a : List Nat) :
    ∀ p : List Nat, a.length = p.length →
      List.zipWith (fun u v => u ^^^ v) (List.zipWith (fun u v => u ^^^ v) a p) p = a := by
  induction a with
  | nil => intro p _; simp
  | cons x xs ih =>
    intro p hp
    cases p with
    | nil => simp at hp
    | cons y ys =>
      simp only [List.zipWith_cons_cons, Nat.xor_assoc, Nat.xor_self, Nat.xor_zero]
      exact congrArg (List.cons x) (ih ys (by simpa using hp))

lemma mask_length (k d : List Nat) : (ABNF.mask k d).length = d.length := by
  simp [ABNF.mask, pyMask, toBytesLE_length]

theorem mask_involutive (k P : List Nat) (hk : k.length = 4)
    (hkb : ∀ b ∈ k, b < 256) (hPb : ∀ b ∈ P, b < 256) :
    ABNF.mask k (ABNF.mask k P) = P := by
  have h1 := pyMask_eq_zipWith k P hk hkb hPb
  have hmb : ∀ x ∈ ABNF.mask k P, x < 256 := by
    intro x hx
    exact toBytesLE_mem_lt _ _ x hx
  have h2 := pyMask_eq_zipWith k (ABNF.mask k P) hk hkb hmb
  have hlen : (ABNF.mask k P).length = P.length := mask_length k P
  show pyMask k (ABNF.mask k P) = P
  rw [h2, hlen]
  show List.zipWith _ (ABNF.mask k P) _ = P
  rw [show ABNF.mask k P = pyMask k P from rfl, h1]
  exact zipWith_xor_cancel P _ (maskPattern_length k hk _).symm

end OctoWS

namespace OctoWS

lemma getD_zipWith_xor :
    ∀ (a b : List Nat) (i : Nat), i < a.length → i < b.length →
      (List.zipWith (fun u v => u ^^^ v) a b).getD i 0 = a.getD i 0 ^^^ b.getD i 0 := by
  intro a
  induction a with
  | nil => intro b i h; simp at h
  | cons x xs ih =>
    intro b i ha hb
    cases b with
    | nil => simp at hb
    | cons y ys =>
      cases i with
      | zero => simp
      | succ j =>
        simp only [List.zipWith_cons_cons, List.getD_cons_succ]
        exact ih ys j (by simpa using ha) (by simpa using hb)

/-- Byte-level reading of the masking transform: output byte `i` is
`P[i] XOR k[i mod 4]`. -/
theorem mask_bytes (k P : List Nat) (hk : k.length = 4)
    (hkb : ∀ b ∈ k, b < 256) (hPb : ∀ b ∈ P, b < 256) :
    ABNF.mask k P =
      (List.range P.length).map (fun i => P.getD i 0 ^^^ k.getD (i % 4) 0) := by
  apply List.ext_getElem
  · simp [mask_length]
  · intro i h1 h2
    have hi : i < P.length := by simpa [mask_length] using h1
    have hpatlen : (maskPattern k P.length).length = P.length := maskPattern_length k hk _
    rw [List.getElem_map, List.getElem_range]
    rw [← List.getD_eq_getElem _ 0 h1]
    show (pyMask k P).getD i 0 = _
    rw [pyMask_eq_zipWith k P hk hkb hPb,
      getD_zipWith_xor P _ i hi (by omega),
      maskPattern_getD k hk P.length i hi]

end OctoWS

namespace OctoWS

lemma packBE_length (len n : Nat) : (packBE len n).length = len := by
  induction len generalizing n with
  | zero => rfl
  | succ k ih => simp [packBE, ih]

lemma packBE_mem_lt (len n : Nat) : ∀ x ∈ packBE len n, x < 256 := by
  induction len generalizing n with
  | zero => simp [packBE]
  | succ k ih =>
    intro x hx
    simp only [packBE, List.mem_append, List.mem_singleton] at hx
    rcases hx with h | h
    · exact ih _ x h
    · omega

lemma unpackBE_packBE (len n : Nat) (h : n < 256 ^ len) :
    unpackBE (packBE len n) = n := by
  induction len generalizing n with
  | zero =>
    have : n = 0 := by simpa using h
    simp [packBE, unpackBE, this]
  | succ k ih =>
    have hdiv : n / 256 < 256 ^ k := by
      rw [Nat.div_lt_iff_lt_mul (by norm_num)]
      calc n < 256 ^ (k + 1) := h
        _ = 256 ^ k * 256 := by ring
    have := ih (n / 256) hdiv
    simp only [packBE, unpackBE, List.foldl_append, List.foldl_cons, List.foldl_nil]
    simp only [unpackBE] at this
    rw [this]
    omega

lemma packBE_two (n : Nat) (h : n < 2 ^ 16) :
    packBE 2 n = [n / 256, n % 256] := by
  have : n / 256 % 256 = n / 256 := Nat.mod_eq_of_lt (by omega)
  simp [packBE, this]

lemma packBE_eight (n : Nat) :
    packBE 8 n =
      [n / 256 ^ 7 % 256, n / 256 ^ 6 % 256, n / 256 ^ 5 % 256, n / 256 ^ 4 % 256,
       n / 256 ^ 3 % 256, n / 256 ^ 2 % 256, n / 256 % 256, n % 256] := by
  simp [packBE, Nat.div_div_eq_div_mul]

end OctoWS

namespace OctoWS

lemma or128_eq_add (L : Nat) (h : L < 128) : 128 ||| L = 128 + L := by
  have h7 : L < 2 ^ 7 := by omega
  have := Nat.mul_add_lt_is_or h7 1
  simpa using this.symm

lemma shiftRight7_and1 (L : Nat) (h : L < 128) : (128 + L) >>> 7 &&& 1 = 1 := by
  rw [Nat.shiftRight_eq_div_pow, Nat.and_one_is_mod]
  have : (128 + L) / 2 ^ 7 = 1 := by norm_num; omega
  rw [this]

lemma shiftRight6_and1 (op : Nat) (h : op < 16) : (128 + op) >>> 6 &&& 1 = 0 := by
  rw [Nat.shiftRight_eq_div_pow, Nat.and_one_is_mod]
  have : (128 + op) / 2 ^ 6 = 2 := by norm_num; omega
  rw [this]

lemma shiftRight5_and1 (op : Nat) (h : op < 16) : (128 + op) >>> 5 &&& 1 = 0 := by
  rw [Nat.shiftRight_eq_div_pow, Nat.and_one_is_mod]
  have : (128 + op) / 2 ^ 5 = 4 := by norm_num; omega
  rw [this]

lemma shiftRight4_and1 (op : Nat) (h : op < 16) : (128 + op) >>> 4 &&& 1 = 0 := by
  rw [Nat.shiftRight_eq_div_pow, Nat.and_one_is_mod]
  have : (128 + op) / 2 ^ 4 = 8 := by norm_num; omega
  rw [this]

lemma and15_eq (op : Nat) (h : op < 16) : (128 + op) &&& 0xF = op := by
  have h15 : (0xF : Nat) = 2 ^ 4 - 1 := by norm_num
  rw [h15, Nat.and_pow_two_sub_one_eq_mod]
  omega

lemma and127_eq (L : Nat) (h : L < 128) : (128 + L) &&& 0x7F = L := by
  have h127 : (0x7F : Nat) = 2 ^ 7 - 1 := by norm_num
  rw [h127, Nat.and_pow_two_sub_one_eq_mod]
  omega

end OctoWS

namespace OctoWS

/-- Evaluating `format` on an unmasked frame whose head margin does not strictly
exceed the header length: the header is prepended to the whole buffer. -/
lemma format_unmasked_fallback (f : ABNF) (mk : List Nat)
    (hfin : f.fin ∈ [0, 1]) (h1 : f.rsv1 ∈ [0, 1]) (h2 : f.rsv2 ∈ [0, 1])
    (h3 : f.rsv3 ∈ [0, 1]) (hop : f.opcode ∈ OPCODES)
    (hlen : f.data_msg_length_bytes < LENGTH_63) (hm : f.mask_value = 0)
    (hnofit : ¬f.frame_header.length < f.data_start_offset_bytes) :
    f.format mk =
      .ok ({ f with data := f.frame_header ++ f.data, data_start_offset_bytes := 0,
                    data_msg_length_bytes := (f.frame_header ++ f.data).length },
           f.frame_header ++ f.data) := by
  simp only [ABNF.format]
  rw [if_neg (not_not_intro ⟨hfin, h1, h2, h3⟩), if_neg (not_not_intro hop),
    if_neg (Nat.not_le.mpr hlen)]
  simp only [hm, ne_eq, not_true_eq_false, if_neg, ite_false, reduceIte, hnofit,
    List.drop_zero, List.take_length]

/-- Evaluating `format` on an unmasked frame whose head margin strictly exceeds the
header length: the header is written into the margin in place. -/
lemma format_unmasked_inplace (f : ABNF) (mk : List Nat)
    (hfin : f.fin ∈ [0, 1]) (h1 : f.rsv1 ∈ [0, 1]) (h2 : f.rsv2 ∈ [0, 1])
    (h3 : f.rsv3 ∈ [0, 1]) (hop : f.opcode ∈ OPCODES)
    (hlen : f.data_msg_length_bytes < LENGTH_63) (hm : f.mask_value = 0)
    (hfit : f.frame_header.length < f.data_start_offset_bytes) :
    f.format mk =
      .ok ({ f with
               data := writeSlice f.data
                 (f.data_start_offset_bytes - f.frame_header.length) f.frame_header,
               data_start_offset_bytes :=
                 f.data_start_offset_bytes - f.frame_header.length,
               data_msg_length_bytes :=
                 f.data_msg_length_bytes + f.frame_header.length },
           ((writeSlice f.data
               (f.data_start_offset_bytes - f.frame_header.length) f.frame_header).drop
             (f.data_start_offset_bytes - f.frame_header.length)).take
             (f.data_msg_length_bytes + f.frame_header.length)) := by
  simp only [ABNF.format]
  rw [if_neg (not_not_intro ⟨hfin, h1, h2, h3⟩), if_neg (not_not_intro hop),
    if_neg (Nat.not_le.mpr hlen)]
  simp only [hm, ne_eq, not_true_eq_false, if_neg, ite_false, reduceIte, hfit, ite_true]

/-- Evaluating `format` on a masked frame: the payload buffer is replaced by
`mask_key ++ masked payload`, the offset is reset, and the header (built
from the original `data_msg_length_bytes`) is prepended by concatenation. -/
lemma format_masked (f : ABNF) (mk : List Nat)
    (hfin : f.fin ∈ [0, 1]) (h1 : f.rsv1 ∈ [0, 1]) (h2 : f.rsv2 ∈ [0, 1])
    (h3 : f.rsv3 ∈ [0, 1]) (hop : f.opcode ∈ OPCODES)
    (hlen : f.data_msg_length_bytes < LENGTH_63) (hm : f.mask_value ≠ 0) :
    f.format mk =
      .ok ({ f with data := f.frame_header ++ (mk ++ ABNF.mask mk f.data),
                    data_start_offset_bytes := 0,
                    data_msg_length_bytes :=
                      (f.frame_header ++ (mk ++ ABNF.mask mk f.data)).length },
           f.frame_header ++ (mk ++ ABNF.mask mk f.data)) := by
  simp only [ABNF.format]
  rw [if_neg (not_not_intro ⟨hfin, h1, h2, h3⟩), if_neg (not_not_intro hop),
    if_neg (Nat.not_le.mpr hlen)]
  simp only [if_pos hm, ABNF._get_masked, Nat.not_lt_zero, ite_false, if_neg,
    reduceIte, List.drop_zero, List.take_length]

end OctoWS

namespace OctoWS

set_option maxRecDepth 40000

/-- Claim C9: for every 4-byte mask key k and every byte sequence P (including
the empty sequence), mask(k, mask(k, P)) = P — the masking transform is an
involution — and each output byte i equals P[i] XOR k[i mod 4]. -/
theorem C9_mask_involution (k P : List Nat) (hk : k.length = 4)
    (hkb : ∀ b ∈ k, b < 256) (hPb : ∀ b ∈ P, b < 256) :
    ABNF.mask k (ABNF.mask k P) = P ∧
      ABNF.mask k P =
        (List.range P.length).map (fun i => P.getD i 0 ^^^ k.getD (i % 4) 0) :=
  ⟨mask_involutive k P hk hkb hPb, mask_bytes k P hk hkb hPb⟩

/-- Witness for C9 at a concrete key and payload. -/
theorem C9_mask_involution_witness :
    ABNF.mask [1, 2, 3, 4] (ABNF.mask [1, 2, 3, 4] [0, 255, 7, 8, 9]) = [0, 255, 7, 8, 9] :=
  (C9_mask_involution [1, 2, 3, 4] [0, 255, 7, 8, 9] (by decide) (by decide) (by decide)).1

/-- The header bytes of an unmasked frame, written out: byte 0 packs
fin/rsv/opcode; the length field is the payload length when < 126, else
126 and a 2-byte big-endian length, else 127 and an 8-byte big-endian
length. -/
lemma frame_header_explicit (f : ABNF) (hm : f.mask_value = 0) :
    f.frame_header =
      (f.fin <<< 7 ||| f.rsv1 <<< 6 ||| f.rsv2 <<< 5 ||| f.rsv3 <<< 4 ||| f.opcode) ::
        (if f.data_msg_length_bytes < 126 then [f.data_msg_length_bytes]
         else if f.data_msg_length_bytes < 2 ^ 16 then
           [126, f.data_msg_length_bytes / 256, f.data_msg_length_bytes % 256]
         else
           [127, f.data_msg_length_bytes / 256 ^ 7 % 256,
            f.data_msg_length_bytes / 256 ^ 6 % 256,
            f.data_msg_length_bytes / 256 ^ 5 % 256,
            f.data_msg_length_bytes / 256 ^ 4 % 256,
            f.data_msg_length_bytes / 256 ^ 3 % 256,
            f.data_msg_length_bytes / 256 ^ 2 % 256,
            f.data_msg_length_bytes / 256 % 256, f.data_msg_length_bytes % 256]) := by
  have hL7 : LENGTH_7 = 126 := rfl
  have hL16 : LENGTH_16 = 2 ^ 16 := by norm_num [LENGTH_16, Nat.shiftLeft_eq]
  simp only [ABNF.frame_header, hm, hL7, hL16, Nat.zero_shiftLeft, Nat.zero_or]
  by_cases hc1 : f.data_msg_length_bytes < 126
  · simp [hc1]
  · by_cases hc2 : f.data_msg_length_bytes < 65536
    · simp [hc1, hc2, packBE_two _ (by omega : f.data_msg_length_bytes < 2 ^ 16)]
    · simp [hc1, hc2, packBE_eight]

/-- Claim C2: the encoder emits the bit-exact header layout — byte 0 is
`fin<<7 | rsv1<<6 | rsv2<<5 | rsv3<<4 | opcode`, the length field is L
with no extended length for L < 126, 126 plus 2-byte big-endian L for
126 ≤ L < 2^16, and 127 plus 8-byte big-endian L for L ≥ 2^16 — and in
particular encoding "Hello" as TEXT fin=1 unmasked yields exactly
`81 05 48 65 6C 6C 6F`, and 256 zero bytes as BINARY fin=1 unmasked yields
`82 7E 01 00` followed by 256 zero bytes. -/
theorem C2_header_layout :
    (∀ (fin rsv1 rsv2 rsv3 opcode : Nat) (data : List Nat),
      fin ∈ [0, 1] → rsv1 ∈ [0, 1] → rsv2 ∈ [0, 1] → rsv3 ∈ [0, 1] →
      opcode ∈ OPCODES → data.length < LENGTH_63 →
      ((ABNF.init fin rsv1 rsv2 rsv3 opcode 0 data none none).format []).map
          (fun p => p.2) =
        .ok ((fin <<< 7 ||| rsv1 <<< 6 ||| rsv2 <<< 5 ||| rsv3 <<< 4 ||| opcode) ::
          (if data.length < 126 then [data.length]
           else if data.length < 2 ^ 16 then
             [126, data.length / 256, data.length % 256]
           else
             [127, data.length / 256 ^ 7 % 256, data.length / 256 ^ 6 % 256,
              data.length / 256 ^ 5 % 256, data.length / 256 ^ 4 % 256,
              data.length / 256 ^ 3 % 256, data.length / 256 ^ 2 % 256,
              data.length / 256 % 256, data.length % 256]) ++ data)) ∧
    ((ABNF.create_frame [0x48, 0x65, 0x6C, 0x6C, 0x6F] OPCODE_TEXT 1 false).format
        []).map (fun p => p.2) =
      .ok [0x81, 0x05, 0x48, 0x65, 0x6C, 0x6C, 0x6F] ∧
    ((ABNF.create_frame (List.replicate 256 0) OPCODE_BINARY 1 false).format
        []).map (fun p => p.2) =
      .ok ([0x82, 0x7E, 0x01, 0x00] ++ List.replicate 256 0) := by
  refine ⟨?_, by decide, by decide⟩
  intro fin rsv1 rsv2 rsv3 opcode data hfin h1 h2 h3 hop hlen
  set f := ABNF.init fin rsv1 rsv2 rsv3 opcode 0 data none none with hf
  have hm : f.mask_value = 0 := rfl
  have hoff : f.data_start_offset_bytes = 0 := rfl
  have hml : f.data_msg_length_bytes = data.length := rfl
  rw [format_unmasked_fallback f [] hfin h1 h2 h3 hop (by rw [hml]; exact hlen) hm
    (by rw [hoff]; exact Nat.not_lt_zero _)]
  simp only [Except.map]
  rw [frame_header_explicit f hm]
  rfl

/-- Witness for C2's universally quantified part at a concrete frame. -/
theorem C2_header_layout_witness :
    ((ABNF.init 1 0 0 0 2 0 [7, 9] none none).format []).map (fun p => p.2) =
      .ok ((1 <<< 7 ||| 0 <<< 6 ||| 0 <<< 5 ||| 0 <<< 4 ||| 2) ::
        (if ([7, 9] : List Nat).length < 126 then [([7, 9] : List Nat).length]
         else if ([7, 9] : List Nat).length < 2 ^ 16 then
           [126, ([7, 9] : List Nat).length / 256, ([7, 9] : List Nat).length % 256]
         else
           [127, ([7, 9] : List Nat).length / 256 ^ 7 % 256,
            ([7, 9] : List Nat).length / 256 ^ 6 % 256,
            ([7, 9] : List Nat).length / 256 ^ 5 % 256,
            ([7, 9] : List Nat).length / 256 ^ 4 % 256,
            ([7, 9] : List Nat).length / 256 ^ 3 % 256,
            ([7, 9] : List Nat).length / 256 ^ 2 % 256,
            ([7, 9] : List Nat).length / 256 % 256,
            ([7, 9] : List Nat).length % 256]) ++ [7, 9]) :=
  C2_header_layout.1 1 0 0 0 2 [7, 9] (by decide) (by decide) (by decide) (by decide)
    (by decide) (by decide)

end OctoWS

namespace OctoWS

end OctoWS


namespace OctoWS

/-- Reduction of `validate` on a standard CLOSE frame to the close-payload
checks. -/
lemma validate_close_reduce (d : List Nat) (skip : Bool) :
    (ABNF.init 1 0 0 0 OPCODE_CLOSE 0 d none none).validate skip =
      (if d.length = 0 then .ok ()
       else if d.length = 1 ∨ 126 ≤ d.length then
         .error (.protocolErr "Invalid close frame.")
       else if 2 < d.length ∧ skip = false ∧ validate_utf8 (d.drop 2) = false then
         .error (.protocolErr "Invalid close frame.")
       else if ABNF._is_valid_close_status (256 * d.getD 0 0 + d.getD 1 0) = true then
         .ok ()
       else .error (.protocolErr "Invalid close opcode")) := by
  simp only [ABNF.validate, ABNF.init, Option.getD]
  simp [OPCODES, OPCODE_CLOSE, OPCODE_PING, OPCODE_CONT, OPCODE_TEXT,
    OPCODE_BINARY, OPCODE_PONG]

end OctoWS

namespace OctoWS

/-- Predicate `_is_valid_close_status` accepts exactly the enumerated codes plus the
interval [3000, 5000). -/
lemma is_valid_close_status_iff (code : Nat) :
    ABNF._is_valid_close_status code = true ↔
      (code ∈ ([1000, 1001, 1002, 1003, 1007, 1008, 1009, 1010, 1011, 1012, 1013,
          1014] : List Nat) ∨
        (3000 ≤ code ∧ code < 5000)) := by
  simp [ABNF._is_valid_close_status, VALID_CLOSE_STATUS, STATUS_NORMAL,
    STATUS_GOING_AWAY, STATUS_PROTOCOL_ERROR, STATUS_UNSUPPORTED_DATA_TYPE,
    STATUS_INVALID_PAYLOAD, STATUS_POLICY_VIOLATION, STATUS_MESSAGE_TOO_BIG,
    STATUS_INVALID_EXTENSION, STATUS_UNEXPECTED_CONDITION, STATUS_SERVICE_RESTART,
    STATUS_TRY_AGAIN_LATER, STATUS_BAD_GATEWAY]

/-- A CLOSE frame with payload length at least 126 always fails
validation. -/
lemma validate_close_long (skip : Bool) (d : List Nat) (hd : 126 ≤ d.length) :
    (ABNF.init 1 0 0 0 OPCODE_CLOSE 0 d none none).validate skip =
      .error (.protocolErr "Invalid close frame.") := by
  rw [validate_close_reduce]
  rw [if_neg (by omega), if_pos (Or.inr hd)]

/-- Claim C4 (amended): validating a CLOSE frame with empty payload succeeds;
payload length exactly 1 raises a protocol error; with payload length ≥ 2
*and < 126* and a valid-UTF-8 reason, validation succeeds iff the
big-endian status code of the first two bytes is in
{1000..1003, 1007..1014} ∪ [3000, 5000) — so codes 1004, 1005, 1006 and
1015 in particular are rejected; payload length ≥ 126 is always rejected
as a protocol error regardless of the status code (which is where the
claim's unbounded "length ≥ 2" reading fails). -/
theorem C4_close_validation (skip : Bool) :
    ((ABNF.init 1 0 0 0 OPCODE_CLOSE 0 [] none none).validate skip = .ok ()) ∧
    (∀ b : Nat, (ABNF.init 1 0 0 0 OPCODE_CLOSE 0 [b] none none).validate skip =
      .error (.protocolErr "Invalid close frame.")) ∧
    (∀ b0 b1 : Nat, ∀ rest : List Nat, (b0 :: b1 :: rest).length < 126 →
      validate_utf8 rest = true →
      ((ABNF.init 1 0 0 0 OPCODE_CLOSE 0 (b0 :: b1 :: rest) none none).validate skip =
          .ok () ↔
        (256 * b0 + b1 ∈
            ([1000, 1001, 1002, 1003, 1007, 1008, 1009, 1010, 1011, 1012, 1013,
              1014] : List Nat) ∨
          (3000 ≤ 256 * b0 + b1 ∧ 256 * b0 + b1 < 5000)))) ∧
    (∀ d : List Nat, 126 ≤ d.length →
      (ABNF.init 1 0 0 0 OPCODE_CLOSE 0 d none none).validate skip =
        .error (.protocolErr "Invalid close frame.")) := by
  refine ⟨by cases skip <;> decide, ?_, ?_, ?_⟩
  · intro b
    rw [validate_close_reduce]
    simp
  · intro b0 b1 rest hlen hutf
    rw [validate_close_reduce]
    have hdrop : (b0 :: b1 :: rest).drop 2 = rest := rfl
    rw [if_neg (by simp), if_neg (by simp only [List.length_cons] at hlen ⊢; omega),
      if_neg (by simp [hdrop, hutf])]
    simp only [List.getD_cons_zero, List.getD_cons_succ]
    rw [← is_valid_close_status_iff]
    by_cases hb : ABNF._is_valid_close_status (256 * b0 + b1) = true
    · rw [if_pos hb]
      simp [hb]
    · rw [if_neg hb]
      simp [hb]
  · intro d hd
    exact validate_close_long skip d hd

/-- Counterexample for C4: a CLOSE payload of length 126 whose status code is
1000 (valid) and whose reason is 124 bytes of valid UTF-8 is rejected,
although the claim's "length ≥ 2, valid reason ⇒ accepted iff code valid"
predicts acceptance. -/
theorem C4_close_validation_counterexample :
    (ABNF.init 1 0 0 0 OPCODE_CLOSE 0 (0x03 :: 0xE8 :: List.replicate 124 0x61)
        none none).validate false =
      .error (.protocolErr "Invalid close frame.") ∧
    validate_utf8 (List.replicate 124 0x61) = true ∧
    (0x03 :: 0xE8 :: List.replicate 124 0x61).length = 126 ∧
    (256 * 0x03 + 0xE8 : Nat) = 1000 := by decide

/-- Witness for C4 at concrete close payloads. -/
theorem C4_close_validation_witness :
    (ABNF.init 1 0 0 0 OPCODE_CLOSE 0 [3, 232, 97] none none).validate false =
        .ok () ↔
      ((256 * 3 + 232 : Nat) ∈
          ([1000, 1001, 1002, 1003, 1007, 1008, 1009, 1010, 1011, 1012, 1013,
            1014] : List Nat) ∨
        (3000 ≤ 256 * 3 + 232 ∧ 256 * 3 + 232 < 5000)) :=
  (C4_close_validation false).2.2.1 3 232 [97] (by decide) (by decide)

end OctoWS

namespace OctoWS

/-- Claim C5 (amended): frame validation rejects a PING with fin=0 and a CLOSE
whose payload length is 1 or ≥ 126; it imposes **no** fin or length
restriction on the other control-frame shapes — a PONG with fin=0, a CLOSE
with fin=0 and empty payload, and a PING with fin=1 carrying any payload
(even longer than 125 bytes) all pass validation. -/
theorem C5_control_frame_validation (skip : Bool) :
    (∀ d : List Nat, (ABNF.init 0 0 0 0 OPCODE_PING 0 d none none).validate skip =
        .error (.protocolErr "Invalid ping frame.")) ∧
    (∀ d : List Nat, 126 ≤ d.length →
      (ABNF.init 1 0 0 0 OPCODE_CLOSE 0 d none none).validate skip =
        .error (.protocolErr "Invalid close frame.")) ∧
    (∀ d : List Nat, (ABNF.init 0 0 0 0 OPCODE_PONG 0 d none none).validate skip =
        .ok ()) ∧
    ((ABNF.init 0 0 0 0 OPCODE_CLOSE 0 [] none none).validate skip = .ok ()) ∧
    (∀ d : List Nat, (ABNF.init 1 0 0 0 OPCODE_PING 0 d none none).validate skip =
        .ok ()) := by
  refine ⟨?_, fun d hd => validate_close_long skip d hd, ?_, ?_, ?_⟩
  · intro d
    simp [ABNF.validate, ABNF.init, OPCODES, OPCODE_CONT, OPCODE_TEXT,
      OPCODE_BINARY, OPCODE_CLOSE, OPCODE_PING, OPCODE_PONG]
  · intro d
    simp [ABNF.validate, ABNF.init, OPCODES, OPCODE_CONT, OPCODE_TEXT,
      OPCODE_BINARY, OPCODE_CLOSE, OPCODE_PING, OPCODE_PONG]
  · cases skip <;> decide
  · intro d
    simp [ABNF.validate, ABNF.init, OPCODES, OPCODE_CONT, OPCODE_TEXT,
      OPCODE_BINARY, OPCODE_CLOSE, OPCODE_PING, OPCODE_PONG]

/-- Counterexample for C5: a decoded-shape PING frame with fin=1 and a 126-byte
payload passes validation, contradicting the claim that every control frame
with payload longer than 125 bytes is rejected. -/
theorem C5_control_frame_validation_counterexample :
    (ABNF.init 1 0 0 0 OPCODE_PING 0 (List.replicate 126 0) none none).validate
        false = .ok () ∧
    (List.replicate 126 (0 : Nat)).length = 126 := by decide

/-- Witness for C5 at a concrete frame. -/
theorem C5_control_frame_validation_witness :
    (ABNF.init 0 0 0 0 OPCODE_PING 0 [1, 2, 3] none none).validate false =
      .error (.protocolErr "Invalid ping frame.") :=
  (C5_control_frame_validation false).1 [1, 2, 3]

/-- Claim C6 (amended): when UTF-8 validation is not skipped, a fully reassembled
TEXT message that is not valid UTF-8 raises the payload error
(`WebSocketPayloadException`, close code 1007); but a CLOSE frame whose
reason bytes after the status code are not valid UTF-8 raises a *protocol*
error (`WebSocketProtocolException`), not a payload error; the two error
kinds are distinct. -/
theorem C6_utf8_errors :
    (∀ (cf : ContinuousFrame) (frame : ABNF) (d : List Nat),
      cf.fire_cont_frame = false → cf.skip_utf8_validation = false →
      cf.cont_data = some (OPCODE_TEXT, d) → validate_utf8 d = false →
      (cf.extract frame).2 = .error (.payloadErr "cannot decode")) ∧
    (∀ (b0 b1 : Nat) (rest : List Nat), (b0 :: b1 :: rest).length < 126 →
      rest ≠ [] → validate_utf8 rest = false →
      (ABNF.init 1 0 0 0 OPCODE_CLOSE 0 (b0 :: b1 :: rest) none none).validate false =
        .error (.protocolErr "Invalid close frame.")) ∧
    (∀ s t : String, WsError.payloadErr s ≠ WsError.protocolErr t) := by
  refine ⟨?_, ?_, by intro s t h; cases h⟩
  · intro cf frame d hfire hskip hcont hutf
    simp only [ContinuousFrame.extract, hcont, hfire, hskip, hutf, OPCODE_TEXT]
    simp
  · intro b0 b1 rest hlen hne hutf
    rw [validate_close_reduce]
    have hdrop : (b0 :: b1 :: rest).drop 2 = rest := rfl
    have hpos : 0 < rest.length := List.length_pos.mpr hne
    rw [if_neg (by simp), if_neg (by simp only [List.length_cons] at hlen ⊢; omega),
      if_pos ⟨by simp only [List.length_cons]; omega, rfl, by rw [hdrop]; exact hutf⟩]

/-- Counterexample for C6: decoding-shape CLOSE frame `03 E8 C0 AF` (valid code
1000, overlong-UTF-8 reason) is rejected, but with a protocol error, not
the payload error the claim requires. -/
theorem C6_utf8_errors_counterexample :
    validate_utf8 [0xC0, 0xAF] = false ∧
    (ABNF.init 1 0 0 0 OPCODE_CLOSE 0 [0x03, 0xE8, 0xC0, 0xAF] none none).validate
        false ≠ .ok () ∧
    isPayloadError
      ((ABNF.init 1 0 0 0 OPCODE_CLOSE 0 [0x03, 0xE8, 0xC0, 0xAF] none none).validate
        false) = false := by decide

/-- Witness for C6 at a concrete reassembler state and close frame. -/
theorem C6_utf8_errors_witness :
    (ContinuousFrame.extract
        { fire_cont_frame := false, skip_utf8_validation := false,
          cont_data := some (OPCODE_TEXT, [0xC0, 0xAF]), recving_frames := none }
        (ABNF.init 1 0 0 0 OPCODE_CONT 0 [0xAF] none none)).2 =
      .error (.payloadErr "cannot decode") :=
  C6_utf8_errors.1 _ _ [0xC0, 0xAF] rfl rfl rfl (by decide)

end OctoWS

namespace OctoWS

lemma frame_header_length_le (f : ABNF) : f.frame_header.length ≤ 10 := by
  simp only [ABNF.frame_header]
  split_ifs <;> simp [packBE_length]

lemma writeSlice_facts (D H : List Nat) (off L : Nat) (hfit : H.length < off)
    (hbuf : off + L ≤ D.length) :
    ((writeSlice D (off - H.length) H).drop (off - H.length)).take (L + H.length) =
      H ++ (D.drop off).take L ∧
    (writeSlice D (off - H.length) H).length = D.length ∧
    ((writeSlice D (off - H.length) H).drop off).take L = (D.drop off).take L := by
  have hoff : off ≤ D.length := by omega
  have hws : writeSlice D (off - H.length) H =
      D.take (off - H.length) ++ (H ++ D.drop off) := by
    simp only [writeSlice, Nat.sub_add_cancel hfit.le, List.append_assoc]
  have hA : (D.take (off - H.length)).length = off - H.length := by
    simp [List.length_take]
    omega
  refine ⟨?_, ?_, ?_⟩
  · rw [hws]
    have h1 : (D.take (off - H.length) ++ (H ++ D.drop off)).drop (off - H.length) =
        H ++ D.drop off := by
      have := @List.drop_append Nat (D.take (off - H.length)) (H ++ D.drop off) 0
      rw [hA] at this
      simpa using this
    rw [h1, Nat.add_comm L H.length]
    have := @List.take_append Nat H (D.drop off) L
    rw [this]
  · rw [hws]
    simp [List.length_append, List.length_take, List.length_drop]
    omega
  · rw [hws]
    have h2 : (D.take (off - H.length) ++ (H ++ D.drop off)).drop off =
        D.drop off := by
      have h3 := @List.drop_append Nat (D.take (off - H.length))
        (H ++ D.drop off) H.length
      rw [hA, Nat.sub_add_cancel hfit.le] at h3
      rw [h3]
      have h4 := @List.drop_append Nat H (D.drop off) 0
      simpa using h4
    rw [h2]

end OctoWS

namespace OctoWS

/-- Claim C8 (amended): for an unmasked frame whose payload lies inside its
buffer, when the head margin *strictly exceeds* the header length — which a
14-byte margin always guarantees, the unmasked header being at most 10
bytes — `format` writes the header into the margin in place (the buffer
keeps its length and the payload bytes stay at their positions) and
returns the view `header ++ payload`; when the margin does not strictly
exceed the header length, it returns a freshly built buffer
`header ++ (entire original buffer)` — which equals `header ++ payload`
only when the margin and tail are empty. -/
theorem C8_zero_copy_prepend (f : ABNF) (mk : List Nat)
    (hfin : f.fin ∈ [0, 1]) (h1 : f.rsv1 ∈ [0, 1]) (h2 : f.rsv2 ∈ [0, 1])
    (h3 : f.rsv3 ∈ [0, 1]) (hop : f.opcode ∈ OPCODES)
    (hlen : f.data_msg_length_bytes < LENGTH_63) (hm : f.mask_value = 0)
    (hbuf : f.data_start_offset_bytes + f.data_msg_length_bytes ≤ f.data.length) :
    (f.frame_header.length < f.data_start_offset_bytes →
      (f.format mk).map (fun p => p.2) =
          .ok (f.frame_header ++
            (f.data.drop f.data_start_offset_bytes).take f.data_msg_length_bytes) ∧
        (f.format mk).map (fun p => p.1.data.length) = .ok f.data.length ∧
        (f.format mk).map
            (fun p => (p.1.data.drop f.data_start_offset_bytes).take
              f.data_msg_length_bytes) =
          .ok ((f.data.drop f.data_start_offset_bytes).take
            f.data_msg_length_bytes)) ∧
    (14 ≤ f.data_start_offset_bytes →
      f.frame_header.length < f.data_start_offset_bytes) ∧
    (¬f.frame_header.length < f.data_start_offset_bytes →
      (f.format mk).map (fun p => p.2) = .ok (f.frame_header ++ f.data)) := by
  refine ⟨?_, ?_, ?_⟩
  · intro hfit
    obtain ⟨w1, w2, w3⟩ := writeSlice_facts f.data f.frame_header
      f.data_start_offset_bytes f.data_msg_length_bytes hfit hbuf
    rw [format_unmasked_inplace f mk hfin h1 h2 h3 hop hlen hm hfit]
    simp only [Except.map]
    exact ⟨by rw [w1], by rw [w2], by rw [w3]⟩
  · intro h14
    have := frame_header_length_le f
    omega
  · intro hnofit
    rw [format_unmasked_fallback f mk hfin h1 h2 h3 hop hlen hm hnofit]
    simp only [Except.map]

/-- Counterexample for C8: an unmasked TEXT frame with payload `[0x42]`, a
2-byte head margin `[0xAA, 0xBB]` (exactly the header length, so "large
enough to hold the header") is *not* prepended in place: `format` returns
the fresh buffer `81 01 AA BB 42` = header ++ whole buffer, which differs
from header ++ payload = `81 01 42`. -/
theorem C8_zero_copy_prepend_counterexample :
    ((ABNF.init 1 0 0 0 1 0 [0xAA, 0xBB, 0x42] (some 2) (some 1)).format []).map
        (fun p => p.2) =
      .ok [0x81, 0x01, 0xAA, 0xBB, 0x42] ∧
    (ABNF.init 1 0 0 0 1 0 [0xAA, 0xBB, 0x42] (some 2) (some 1)).frame_header.length
        = 2 ∧
    (ABNF.init 1 0 0 0 1 0 [0xAA, 0xBB, 0x42] (some 2)
        (some 1)).data_start_offset_bytes = 2 ∧
    ([0x81, 0x01, 0xAA, 0xBB, 0x42] : List Nat) ≠
      (ABNF.init 1 0 0 0 1 0 [0xAA, 0xBB, 0x42] (some 2) (some 1)).frame_header ++
        [0x42] := by decide

/-- Witness for C8's in-place branch at a concrete frame with a 15-byte
margin. -/
theorem C8_zero_copy_prepend_witness :
    ((ABNF.init 1 0 0 0 1 0 (List.replicate 15 0xAA ++ [0x42]) (some 15)
        (some 1)).format []).map (fun p => p.2) =
      .ok ((ABNF.init 1 0 0 0 1 0 (List.replicate 15 0xAA ++ [0x42]) (some 15)
          (some 1)).frame_header ++
        (((List.replicate 15 0xAA ++ [0x42]) : List Nat).drop 15).take 1) :=
  ((C8_zero_copy_prepend (ABNF.init 1 0 0 0 1 0 (List.replicate 15 0xAA ++ [0x42])
      (some 15) (some 1)) [] (by decide) (by decide) (by decide) (by decide)
      (by decide) (by decide) (by decide) (by decide)).1 (by decide)).1

end OctoWS

namespace OctoWS

lemma frame_header_length_ge (f : ABNF) : 2 ≤ f.frame_header.length := by
  simp only [ABNF.frame_header]
  split_ifs <;> simp [packBE_length]

/-- Claim C10: `format` mutates the frame it is called on — with masking enabled
the `data` field is replaced by `header ++ mask_key ++ masked_payload`, so
the frame no longer holds the original plaintext payload in `data`, and a
second `format` call on the same frame produces different wire bytes
(`format` is not idempotent). -/
theorem C10_format_not_idempotent (f : ABNF) (k1 k2 : List Nat)
    (hfin : f.fin ∈ [0, 1]) (h1 : f.rsv1 ∈ [0, 1]) (h2 : f.rsv2 ∈ [0, 1])
    (h3 : f.rsv3 ∈ [0, 1]) (hop : f.opcode ∈ OPCODES) (hm : f.mask_value = 1)
    (hlen : f.data_msg_length_bytes < LENGTH_63)
    (hlen2 : f.data.length + 14 < LENGTH_63)
    (hk1 : k1.length = 4) (hk2 : k2.length = 4) :
    (f.format k1).map (fun p => p.1.data) =
        .ok (f.frame_header ++ (k1 ++ ABNF.mask k1 f.data)) ∧
    (f.format k1).map (fun p => p.1.data) ≠ .ok f.data ∧
    (f.format k1).bind (fun p => (p.1.format k2).map (fun q => q.2)) ≠
      (f.format k1).map (fun p => p.2) := by
  have hm0 : f.mask_value ≠ 0 := by omega
  have hfm := format_masked f k1 hfin h1 h2 h3 hop hlen hm0
  have hd1len : (f.frame_header ++ (k1 ++ ABNF.mask k1 f.data)).length =
      f.frame_header.length + 4 + f.data.length := by
    simp [List.length_append, hk1, mask_length]
    omega
  have hge := frame_header_length_ge f
  have hle := frame_header_length_le f
  refine ⟨by rw [hfm]; rfl, ?_, ?_⟩
  · rw [hfm]
    simp only [Except.map]
    intro h
    have := Except.ok.inj h
    have hlen1 := congrArg List.length this
    rw [hd1len] at hlen1
    omega
  · rw [hfm]
    simp only [Except.map, Except.bind]
    set f1 : ABNF :=
      { f with data := f.frame_header ++ (k1 ++ ABNF.mask k1 f.data),
               data_start_offset_bytes := 0,
               data_msg_length_bytes :=
                 (f.frame_header ++ (k1 ++ ABNF.mask k1 f.data)).length } with hf1
    have hfm2 := format_masked f1 k2 hfin h1 h2 h3 hop
      (by rw [hf1]; simp only [hd1len]; simp only [LENGTH_63] at hlen2 ⊢; omega)
      (by rw [hf1]; exact hm0)
    rw [hfm2]
    simp only [Except.map]
    intro h
    have := Except.ok.inj h
    have hlen1 := congrArg List.length this
    have hge1 := frame_header_length_ge f1
    simp only [List.length_append, mask_length, hk2, hd1len] at hlen1
    omega

/-- Witness for C10 at a concrete masked frame and keys. -/
theorem C10_format_not_idempotent_witness :
    ((ABNF.create_frame [9, 8] OPCODE_TEXT 1 true).format [1, 2, 3, 4]).map
        (fun p => p.1.data) =
      .ok ((ABNF.create_frame [9, 8] OPCODE_TEXT 1 true).frame_header ++
        ([1, 2, 3, 4] ++ ABNF.mask [1, 2, 3, 4] [9, 8])) :=
  (C10_format_not_idempotent (ABNF.create_frame [9, 8] OPCODE_TEXT 1 true)
    [1, 2, 3, 4] [5, 6, 7, 8] (by decide) (by decide) (by decide) (by decide)
    (by decide) (by decide) (by decide) (by decide) (by decide) (by decide)).1

end OctoWS

namespace OctoWS

lemma recvStrictChunkedGo_requests (sched : Nat → Nat) (fuel : Nat) :
    ∀ (stream : List Nat) (i shortage : Nat) (acc : List Nat)
      (reqs : List (Nat × Nat)),
      ∀ p ∈ (recvStrictChunkedGo sched fuel stream i shortage acc reqs).2,
        p ∈ reqs ∨ (p.2 = min 131072 p.1 ∧ p.1 ≤ shortage) := by
  induction fuel with
  | zero =>
    intro stream i shortage acc reqs p hp
    rw [recvStrictChunkedGo] at hp
    by_cases h0 : shortage = 0
    · rw [if_pos h0] at hp
      exact Or.inl hp
    · rw [if_neg h0] at hp
      simp only at hp
      split at hp <;>
        · rcases List.mem_append.mp hp with h | h
          · exact Or.inl h
          · simp only [List.mem_singleton] at h
            subst h
            exact Or.inr ⟨rfl, le_refl _⟩
  | succ fuel ih =>
    intro stream i shortage acc reqs p hp
    rw [recvStrictChunkedGo] at hp
    by_cases h0 : shortage = 0
    · rw [if_pos h0] at hp
      exact Or.inl hp
    · rw [if_neg h0] at hp
      simp only at hp
      split at hp
      · rcases List.mem_append.mp hp with h | h
        · exact Or.inl h
        · simp only [List.mem_singleton] at h
          subst h
          exact Or.inr ⟨rfl, le_refl _⟩
      · rcases ih _ _ _ _ _ p hp with h | h
        · rcases List.mem_append.mp h with h2 | h2
          · exact Or.inl h2
          · simp only [List.mem_singleton] at h2
            subst h2
            exact Or.inr ⟨rfl, le_refl _⟩
        · exact Or.inr ⟨h.1, by omega⟩

end OctoWS

namespace OctoWS

lemma recvStrictChunkedGo_ok (sched : Nat → Nat) (hs : ∀ j, 1 ≤ sched j)
    (fuel : Nat) :
    ∀ (stream : List Nat) (i shortage : Nat) (acc : List Nat)
      (reqs : List (Nat × Nat)),
      shortage ≤ fuel → shortage ≤ stream.length →
      (recvStrictChunkedGo sched fuel stream i shortage acc reqs).1 =
        .ok (acc ++ stream.take shortage) := by
  induction fuel with
  | zero =>
    intro stream i shortage acc reqs hf _
    have h0 : shortage = 0 := by omega
    rw [recvStrictChunkedGo, if_pos h0, h0]
    simp
  | succ fuel ih =>
    intro stream i shortage acc reqs hf hlen
    rw [recvStrictChunkedGo]
    by_cases h0 : shortage = 0
    · rw [if_pos h0, h0]
      simp
    · rw [if_neg h0]
      simp only
      have hd : min (min 131072 shortage) (min (sched i) stream.length) ≠ 0 := by
        have := hs i
        simp only [Nat.min_def]
        split_ifs <;> omega
      rw [if_neg hd]
      set d := min (min 131072 shortage) (min (sched i) stream.length) with hdd
      have hd1 : 1 ≤ d := Nat.one_le_iff_ne_zero.mpr hd
      have hdle : d ≤ shortage := by
        simp only [hdd, Nat.min_def]
        split_ifs <;> omega
      have hdstream : d ≤ stream.length := by
        simp only [hdd, Nat.min_def]
        split_ifs <;> omega
      rw [ih (stream.drop d) (i + 1) (shortage - d) (acc ++ stream.take d) _
        (by omega) (by simp [List.length_drop]; omega)]
      congr 1
      rw [List.append_assoc]
      congr 1
      have : shortage = d + (shortage - d) := by omega
      rw [this, List.take_add]
      congr 2
      omega

lemma recvStrictChunkedGo_eof (sched : Nat → Nat) (hs : ∀ j, 1 ≤ sched j)
    (fuel : Nat) :
    ∀ (stream : List Nat) (i shortage : Nat) (acc : List Nat)
      (reqs : List (Nat × Nat)),
      shortage ≤ fuel → stream.length < shortage →
      (recvStrictChunkedGo sched fuel stream i shortage acc reqs).1 =
        .error .connClosed := by
  induction fuel with
  | zero =>
    intro stream i shortage acc reqs hf hlen
    omega
  | succ fuel ih =>
    intro stream i shortage acc reqs hf hlen
    rw [recvStrictChunkedGo]
    have h0 : shortage ≠ 0 := by omega
    rw [if_neg h0]
    simp only
    by_cases hempty : stream.length = 0
    · have hd : min (min 131072 shortage) (min (sched i) stream.length) = 0 := by
        simp [hempty]
      rw [if_pos hd]
    · have hd : min (min 131072 shortage) (min (sched i) stream.length) ≠ 0 := by
        have := hs i
        simp only [Nat.min_def]
        split_ifs <;> omega
      rw [if_neg hd]
      set d := min (min 131072 shortage) (min (sched i) stream.length) with hdd
      have hd1 : 1 ≤ d := Nat.one_le_iff_ne_zero.mpr hd
      have hdle : d ≤ shortage := by
        simp only [hdd, Nat.min_def]
        split_ifs <;> omega
      have hdstream : d ≤ stream.length := by
        simp only [hdd, Nat.min_def]
        split_ifs <;> omega
      exact ih (stream.drop d) (i + 1) (shortage - d) _ _ (by omega)
        (by simp [List.length_drop]; omega)

/-- Claim C7 (spec-modelled byte source): `recv_strict(n)` records one read
request per iteration, each of exactly `min(131072, remaining)` bytes with
`remaining ≤ n`; against a live source (every call delivers at least one
byte while the stream lasts) it returns exactly the first `n` stream bytes
when the stream holds at least `n`, and surfaces the connection-closed
error when the stream is exhausted (a read delivering 0 bytes) before `n`
bytes arrive. -/
theorem C7_recv_strict (sched : Nat → Nat) (stream : List Nat) (n : Nat)
    (hs : ∀ j, 1 ≤ sched j) :
    (∀ p ∈ (recv_strict_chunked sched stream n).2,
      p.2 = min 131072 p.1 ∧ p.1 ≤ n) ∧
    (n ≤ stream.length →
      (recv_strict_chunked sched stream n).1 = .ok (stream.take n) ∧
        (stream.take n).length = n) ∧
    (stream.length < n →
      (recv_strict_chunked sched stream n).1 = .error .connClosed) := by
  refine ⟨?_, ?_, ?_⟩
  · intro p hp
    rcases recvStrictChunkedGo_requests sched n stream 0 n [] [] p hp with h | h
    · simp at h
    · exact h
  · intro hn
    constructor
    · have := recvStrictChunkedGo_ok sched hs n stream 0 n [] [] (le_refl n) hn
      simpa [recv_strict_chunked] using this
    · simp [List.length_take]
      omega
  · intro hn
    exact recvStrictChunkedGo_eof sched hs n stream 0 n [] [] (le_refl n) hn

/-- Witness for C7: a 5-byte read from a 7-byte stream delivered 3 bytes
per call returns exactly the first 5 bytes. -/
theorem C7_recv_strict_witness :
    (recv_strict_chunked (fun _ => 3) [1, 2, 3, 4, 5, 6, 7] 5).1 =
        .ok (([1, 2, 3, 4, 5, 6, 7] : List Nat).take 5) ∧
      (([1, 2, 3, 4, 5, 6, 7] : List Nat).take 5).length = 5 :=
  (C7_recv_strict (fun _ => 3) [1, 2, 3, 4, 5, 6, 7] 5
    (by intro j; norm_num)).2.1 (by decide)

end OctoWS

namespace OctoWS

lemma except_bind_ok {α β : Type} (a : α) (g : α → Except WsError β) :
    (Except.ok a : Except WsError α) >>= g = g a := rfl

lemma except_map_ok {α β : Type} (a : α) (g : α → β) :
    ((Except.ok a : Except WsError α).map g) = .ok (g a) := rfl

lemma except_pure_eq {α : Type} (a : α) : (pure a : Except WsError α) = .ok a := rfl

lemma recvStrictL_exact (n : Nat) (a b : List Nat) (h : a.length = n) :
    recvStrictL n (a ++ b) = .ok (a, b) := by
  rw [recvStrictL, if_pos (by simp [h])]
  rw [List.take_left' h, List.drop_left' h]

lemma recvStrictL_all (a : List Nat) :
    recvStrictL a.length a = .ok (a, []) := by
  have := recvStrictL_exact a.length a [] rfl
  simpa using this

/-- Claim C1: decoding the bytes of a masked data frame (TEXT or BINARY, fin=1)
recovers a frame with the same fin, rsv1-3, opcode and (unmasked) payload;
the byte stream is consumed exactly. -/
theorem C1_encode_decode_roundtrip (op : Nat)
    (hop : op = OPCODE_TEXT ∨ op = OPCODE_BINARY) (payload key : List Nat)
    (hkl : key.length = 4) (hkb : ∀ b ∈ key, b < 256)
    (hpb : ∀ b ∈ payload, b < 256) (hplen : payload.length < LENGTH_63)
    (skip : Bool) :
    ((ABNF.create_frame payload op 1 true).format key).bind
        (fun p => recv_frame skip p.2) =
      .ok (ABNF.init 1 0 0 0 op 1 payload none none, []) := by
  have hop16 : op < 16 := by
    rcases hop with rfl | rfl <;> norm_num [OPCODE_TEXT, OPCODE_BINARY]
  have hopmem : op ∈ OPCODES := by
    rcases hop with rfl | rfl <;> simp [OPCODES]
  set f := ABNF.create_frame payload op 1 true with hf
  have hffin : f.fin = 1 := rfl
  have hfm : f.mask_value = 1 := rfl
  have hfL : f.data_msg_length_bytes = payload.length := rfl
  have hfD : f.data = payload := rfl
  have hmasklen : (ABNF.mask key payload).length = payload.length :=
    mask_length key payload
  -- the encoder output
  have hfmt := format_masked f key (by show (1 : Nat) ∈ [0, 1]; decide)
    (by show (0 : Nat) ∈ [0, 1]; decide) (by show (0 : Nat) ∈ [0, 1]; decide)
    (by show (0 : Nat) ∈ [0, 1]; decide) hopmem (by rw [hfL]; exact hplen)
    (by rw [hfm]; exact one_ne_zero)
  rw [hfmt]
  show recv_frame skip (f.frame_header ++ (key ++ ABNF.mask key f.data)) = _
  -- byte 0 of the header
  have hb0 : f.fin <<< 7 ||| f.rsv1 <<< 6 ||| f.rsv2 <<< 5 ||| f.rsv3 <<< 4 |||
      f.opcode = 128 + op := by
    show (1 : Nat) <<< 7 ||| 0 <<< 6 ||| 0 <<< 5 ||| 0 <<< 4 ||| op = 128 + op
    simp only [Nat.zero_shiftLeft, Nat.or_zero]
    exact or128_eq_add op (by omega)
  -- header-byte extraction facts for byte 0
  have hfin1 := shiftRight7_and1 op (by omega)
  have hr1 := shiftRight6_and1 op hop16
  have hr2 := shiftRight5_and1 op hop16
  have hr3 := shiftRight4_and1 op hop16
  have hopx := and15_eq op hop16
  -- validation of the decoded frame succeeds for data opcodes
  have hval : (ABNF.init 1 0 0 0 op 1 payload none none).validate skip = .ok () := by
    rcases hop with rfl | rfl <;>
      simp [ABNF.validate, ABNF.init, OPCODES, OPCODE_CONT, OPCODE_TEXT,
        OPCODE_BINARY, OPCODE_CLOSE, OPCODE_PING, OPCODE_PONG]
  -- the mask round-trip
  have hunmask : ABNF.mask key (ABNF.mask key payload) = payload :=
    mask_involutive key payload hkl hkb hpb
  rcases Nat.lt_or_ge payload.length 126 with hc1 | hc1
  · -- 7-bit length field
    have hH : f.frame_header = (128 + op) :: [128 + payload.length] := by
      simp only [ABNF.frame_header, hb0, hfL, hfm]
      rw [if_pos (by norm_num [LENGTH_7]; omega)]
      congr 2
      show (1 : Nat) <<< 7 ||| payload.length = 128 + payload.length
      exact or128_eq_add payload.length (by omega)
    rw [hH]
    rw [recv_frame]
    rw [show ((128 + op) :: [128 + payload.length] ++ (key ++ ABNF.mask key f.data)) =
      (128 + op) :: (128 + payload.length) :: (key ++ ABNF.mask key f.data) from rfl]
    rw [show recvStrictL 2 ((128 + op) :: (128 + payload.length) ::
        (key ++ ABNF.mask key f.data)) =
      .ok ([128 + op, 128 + payload.length], key ++ ABNF.mask key f.data) from
      recvStrictL_exact 2 [128 + op, 128 + payload.length] _ rfl]
    simp only [except_bind_ok, except_map_ok, except_pure_eq, List.getD_cons_zero,
      List.getD_cons_succ]
    rw [and127_eq payload.length (by omega)]
    rw [if_neg (by omega : ¬payload.length = 126),
      if_neg (by omega : ¬payload.length = 127)]
    simp only [shiftRight7_and1 payload.length (by omega), hfin1, hr1, hr2, hr3,
      hopx, ne_eq, one_ne_zero, not_false_eq_true, ite_true, hfD]
    rw [recvStrictL_exact 4 key (ABNF.mask key payload) hkl]
    simp only [except_bind_ok]
    rw [show recvStrictL payload.length (ABNF.mask key payload) =
        .ok (ABNF.mask key payload, []) from by
      rw [← hmasklen]; exact recvStrictL_all _]
    simp only [except_bind_ok, hunmask, hval, except_bind_ok, except_pure_eq]
  · rcases Nat.lt_or_ge payload.length 65536 with hc2 | hc2
    · -- 16-bit extended length
      have hH : f.frame_header = (128 + op) :: 254 ::
          packBE 2 payload.length := by
        simp only [ABNF.frame_header, hb0, hfL, hfm]
        rw [if_neg (by norm_num [LENGTH_7]; omega),
          if_pos (by norm_num [LENGTH_16, Nat.shiftLeft_eq]; omega)]
        rfl
      rw [hH]
      rw [recv_frame]
      rw [show ((128 + op) :: 254 :: packBE 2 payload.length ++
          (key ++ ABNF.mask key f.data)) =
        [128 + op, 254] ++ (packBE 2 payload.length ++
          (key ++ ABNF.mask key f.data)) from by simp]
      rw [recvStrictL_exact 2 [128 + op, 254] _ rfl]
      simp only [except_bind_ok, except_map_ok, except_pure_eq, List.getD_cons_zero,
        List.getD_cons_succ]
      rw [show (254 : Nat) &&& 127 = 126 from by decide]
      rw [if_pos rfl]
      rw [recvStrictL_exact 2 (packBE 2 payload.length) _ (packBE_length 2 _)]
      simp only [except_bind_ok, except_map_ok]
      rw [unpackBE_packBE 2 payload.length (by norm_num; omega)]
      simp only [hfin1, hr1, hr2, hr3, hopx,
        show (254 : Nat) >>> 7 &&& 1 = 1 from by decide, ne_eq, one_ne_zero,
        not_false_eq_true, ite_true, hfD]
      rw [recvStrictL_exact 4 key (ABNF.mask key payload) hkl]
      simp only [except_bind_ok]
      rw [show recvStrictL payload.length (ABNF.mask key payload) =
          .ok (ABNF.mask key payload, []) from by
        rw [← hmasklen]; exact recvStrictL_all _]
      simp only [except_bind_ok, hunmask, hval, except_pure_eq]
    · -- 64-bit extended length
      have hH : f.frame_header = (128 + op) :: 255 ::
          packBE 8 payload.length := by
        simp only [ABNF.frame_header, hb0, hfL, hfm]
        rw [if_neg (by norm_num [LENGTH_7]; omega),
          if_neg (by norm_num [LENGTH_16, Nat.shiftLeft_eq]; omega)]
        rfl
      rw [hH]
      rw [recv_frame]
      rw [show ((128 + op) :: 255 :: packBE 8 payload.length ++
          (key ++ ABNF.mask key f.data)) =
        [128 + op, 255] ++ (packBE 8 payload.length ++
          (key ++ ABNF.mask key f.data)) from by simp]
      rw [recvStrictL_exact 2 [128 + op, 255] _ rfl]
      simp only [except_bind_ok, except_map_ok, except_pure_eq, List.getD_cons_zero,
        List.getD_cons_succ]
      rw [show (255 : Nat) &&& 127 = 127 from by decide]
      rw [if_neg (by omega : ¬(127 : Nat) = 126), if_pos rfl]
      rw [recvStrictL_exact 8 (packBE 8 payload.length) _ (packBE_length 8 _)]
      simp only [except_bind_ok, except_map_ok]
      rw [unpackBE_packBE 8 payload.length
        (by simp only [LENGTH_63, Nat.shiftLeft_eq] at hplen; norm_num; omega)]
      simp only [hfin1, hr1, hr2, hr3, hopx,
        show (255 : Nat) >>> 7 &&& 1 = 1 from by decide, ne_eq, one_ne_zero,
        not_false_eq_true, ite_true, hfD]
      rw [recvStrictL_exact 4 key (ABNF.mask key payload) hkl]
      simp only [except_bind_ok]
      rw [show recvStrictL payload.length (ABNF.mask key payload) =
          .ok (ABNF.mask key payload, []) from by
        rw [← hmasklen]; exact recvStrictL_all _]
      simp only [except_bind_ok, hunmask, hval, except_pure_eq]

end OctoWS

namespace OctoWS

/-- Witness for C1 at a concrete payload and key. -/
theorem C1_encode_decode_roundtrip_witness :
    ((ABNF.create_frame [72, 101] OPCODE_TEXT 1 true).format [7, 7, 7, 7]).bind
        (fun p => recv_frame false p.2) =
      .ok (ABNF.init 1 0 0 0 OPCODE_TEXT 1 [72, 101] none none, []) :=
  C1_encode_decode_roundtrip OPCODE_TEXT (Or.inl rfl) [72, 101] [7, 7, 7, 7]
    (by decide) (by decide) (by decide) (by decide) false

lemma interleave_nil_ctrl :
    ∀ {frags full : List ABNF}, Interleave frags full → frags = [] →
      ∀ f ∈ full, isCtrlFrame f = true := by
  intro frags full h
  induction h with
  | nil => intro _ f hf; simp at hf
  | frag f h ih => intro he; simp at he
  | ctrl c hc h ih =>
    intro he f hf
    rcases List.mem_cons.mp hf with rfl | hf
    · exact hc
    · exact ih he f hf

lemma processFrame_ctrl (cf : ContinuousFrame) (c : ABNF)
    (hc : isCtrlFrame c = true) :
    processFrame cf c = (cf, .ok (some (c.opcode, c.data))) := by
  simp only [isCtrlFrame, Bool.or_eq_true, decide_eq_true_eq] at hc
  have h0 : ¬c.opcode = OPCODE_CONT := by
    simp [OPCODE_CONT, OPCODE_CLOSE, OPCODE_PING, OPCODE_PONG] at hc ⊢; omega
  have h1 : ¬c.opcode = OPCODE_TEXT := by
    simp [OPCODE_TEXT, OPCODE_CLOSE, OPCODE_PING, OPCODE_PONG] at hc ⊢; omega
  have h2 : ¬c.opcode = OPCODE_BINARY := by
    simp [OPCODE_BINARY, OPCODE_CLOSE, OPCODE_PING, OPCODE_PONG] at hc ⊢; omega
  simp [processFrame, h0, h1, h2]

lemma runFrames_all_ctrl (cf : ContinuousFrame) (l : List ABNF)
    (h : ∀ f ∈ l, isCtrlFrame f = true) :
    runFrames cf l = (cf, .ok (l.map fun c => (c.opcode, c.data))) := by
  induction l with
  | nil => rfl
  | cons c t ih =>
    have ht := ih fun f hf => h f (List.mem_cons_of_mem c hf)
    simp only [runFrames, processFrame_ctrl cf c (h c (List.mem_cons_self c t)), ht,
      List.map_cons]

lemma expectedOuts_all_ctrl (msg : List Nat) (l : List ABNF)
    (h : ∀ f ∈ l, isCtrlFrame f = true) :
    expectedOuts msg l = l.map fun c => (c.opcode, c.data) := by
  induction l with
  | nil => rfl
  | cons c t ih =>
    rw [expectedOuts, if_pos (h c (List.mem_cons_self c t)),
      ih (fun f hf => h f (List.mem_cons_of_mem c hf)), List.map_cons]

end OctoWS

namespace OctoWS

lemma processFrame_cont_mid (s : Bool) (acc p : List Nat) :
    processFrame ⟨false, s, some (OPCODE_TEXT, acc), some OPCODE_TEXT⟩
        (mkDataFrame OPCODE_CONT 0 p) =
      (⟨false, s, some (OPCODE_TEXT, acc ++ p), some OPCODE_TEXT⟩, .ok none) := by
  simp [processFrame, ContinuousFrame.validate, ContinuousFrame.add,
    ContinuousFrame.is_fire, truthy, mkDataFrame, ABNF.init, OPCODE_CONT,
    OPCODE_TEXT, OPCODE_BINARY]

lemma processFrame_cont_fin (s : Bool) (acc plast : List Nat)
    (hv : s = true ∨ validate_utf8 (acc ++ plast) = true) :
    processFrame ⟨false, s, some (OPCODE_TEXT, acc), some OPCODE_TEXT⟩
        (mkDataFrame OPCODE_CONT 1 plast) =
      (⟨false, s, none, none⟩, .ok (some (OPCODE_TEXT, acc ++ plast))) := by
  rcases hv with rfl | hv
  · simp [processFrame, ContinuousFrame.validate, ContinuousFrame.add,
      ContinuousFrame.is_fire, ContinuousFrame.extract, truthy, mkDataFrame,
      ABNF.init, OPCODE_CONT, OPCODE_TEXT, OPCODE_BINARY]
  · simp [processFrame, ContinuousFrame.validate, ContinuousFrame.add,
      ContinuousFrame.is_fire, ContinuousFrame.extract, truthy, mkDataFrame,
      ABNF.init, OPCODE_CONT, OPCODE_TEXT, OPCODE_BINARY, hv]

lemma processFrame_text_start (s : Bool) (p0 : List Nat) :
    processFrame (ContinuousFrame.init false s) (mkDataFrame OPCODE_TEXT 0 p0) =
      (⟨false, s, some (OPCODE_TEXT, p0), some OPCODE_TEXT⟩, .ok none) := by
  simp [processFrame, ContinuousFrame.validate, ContinuousFrame.add,
    ContinuousFrame.is_fire, ContinuousFrame.init, truthy, mkDataFrame, ABNF.init,
    OPCODE_CONT, OPCODE_TEXT, OPCODE_BINARY]

end OctoWS

namespace OctoWS

lemma runFrames_building (s : Bool) :
    ∀ {frags full : List ABNF}, Interleave frags full →
      ∀ (ps : List (List Nat)) (plast acc : List Nat),
        frags = ps.map (mkDataFrame OPCODE_CONT 0) ++
          [mkDataFrame OPCODE_CONT 1 plast] →
        (s = true ∨ validate_utf8 (acc ++ ps.flatten ++ plast) = true) →
        runFrames ⟨false, s, some (OPCODE_TEXT, acc), some OPCODE_TEXT⟩ full =
          (⟨false, s, none, none⟩,
            .ok (expectedOuts (acc ++ ps.flatten ++ plast) full)) := by
  intro frags full h
  induction h with
  | nil =>
    intro ps plast acc he hv
    exact absurd he (by simp)
  | frag f h ih =>
    rename_i fs full1
    intro ps plast acc he hv
    cases ps with
    | nil =>
      simp only [List.map_nil, List.nil_append, List.cons.injEq] at he
      obtain ⟨rfl, rfl⟩ := he
      have hctrl := runFrames_all_ctrl
        (⟨false, s, none, none⟩ : ContinuousFrame) full1
        (interleave_nil_ctrl h rfl)
      simp only [runFrames, processFrame_cont_fin s acc plast (by simpa using hv),
        hctrl]
      rw [expectedOuts,
        if_neg (by simp [isCtrlFrame, mkDataFrame, ABNF.init, OPCODE_CONT,
          OPCODE_CLOSE, OPCODE_PING, OPCODE_PONG]),
        if_pos (by simp [mkDataFrame, ABNF.init])]
      rw [expectedOuts_all_ctrl _ full1 (interleave_nil_ctrl h rfl)]
      simp
    | cons p ps' =>
      simp only [List.map_cons, List.cons_append, List.cons.injEq] at he
      obtain ⟨rfl, he⟩ := he
      have hv' : s = true ∨
          validate_utf8 ((acc ++ p) ++ ps'.flatten ++ plast) = true := by
        rcases hv with h1 | h1
        · exact Or.inl h1
        · refine Or.inr ?_
          rw [← h1]
          congr 1
          simp [List.append_assoc]
      have hih := ih ps' plast (acc ++ p) he hv'
      simp only [runFrames, processFrame_cont_mid s acc p, hih]
      rw [expectedOuts,
        if_neg (by simp [isCtrlFrame, mkDataFrame, ABNF.init, OPCODE_CONT,
          OPCODE_CLOSE, OPCODE_PING, OPCODE_PONG]),
        if_neg (by simp [mkDataFrame, ABNF.init])]
      have : (acc ++ p) ++ ps'.flatten ++ plast =
          acc ++ (p :: ps').flatten ++ plast := by
        simp [List.append_assoc]
      rw [this]
  | ctrl c hc h ih =>
    intro ps plast acc he hv
    have hih := ih ps plast acc he hv
    simp only [runFrames, processFrame_ctrl _ c hc, hih]
    rw [expectedOuts, if_pos hc]

end OctoWS

namespace OctoWS

lemma runFrames_idle (s : Bool) :
    ∀ {frags full : List ABNF}, Interleave frags full →
      ∀ (p0 : List Nat) (ps : List (List Nat)) (plast : List Nat),
        frags = fragFrames p0 ps plast →
        (s = true ∨ validate_utf8 (p0 ++ ps.flatten ++ plast) = true) →
        runFrames (ContinuousFrame.init false s) full =
          (ContinuousFrame.init false s,
            .ok (expectedOuts (p0 ++ ps.flatten ++ plast) full)) := by
  intro frags full h
  induction h with
  | nil =>
    intro p0 ps plast he hv
    exact absurd he (by simp [fragFrames])
  | frag f h ih =>
    rename_i fs full1
    intro p0 ps plast he hv
    simp only [fragFrames, List.cons.injEq] at he
    obtain ⟨rfl, rfl⟩ := he
    have hbuild := runFrames_building s h ps plast p0 rfl hv
    simp only [runFrames, processFrame_text_start s p0, hbuild]
    rw [expectedOuts,
      if_neg (by simp [isCtrlFrame, mkDataFrame, ABNF.init, OPCODE_TEXT,
        OPCODE_CLOSE, OPCODE_PING, OPCODE_PONG]),
      if_neg (by simp [mkDataFrame, ABNF.init])]
    rfl
  | ctrl c hc h ih =>
    intro p0 ps plast he hv
    have hih := ih p0 ps plast he hv
    simp only [runFrames, processFrame_ctrl _ c hc, hih]
    rw [expectedOuts, if_pos hc]

/-- Claim C3 (amended): with `fire_cont_frame = false`, a CONT frame while no
message is being built raises the protocol error "Illegal frame"; a TEXT
or BINARY frame while a message is being built raises the same protocol
error; and every fragment sequence `(TEXT, fin=0)`, `(CONT, fin=0)*`,
`(CONT, fin=1)`, arbitrarily interleaved with control frames, makes the
reassembler emit each control frame immediately at its own position
without disturbing the reassembly state and exactly one data message —
`(TEXT, concatenation of the fragment payloads)`, at the position of the
final frame — *provided* UTF-8 validation is skipped or the concatenated
payload is valid UTF-8 (otherwise a payload error is raised instead and no
message is emitted). -/
theorem C3_reassembly (s : Bool) :
    (∀ (d : List Nat) (fin : Nat),
      (processFrame (ContinuousFrame.init false s)
          (mkDataFrame OPCODE_CONT fin d)).2 =
        .error (.protocolErr "Illegal frame")) ∧
    (∀ (cf : ContinuousFrame) (op fin : Nat) (d : List Nat),
      (cf.recving_frames = some OPCODE_TEXT ∨
        cf.recving_frames = some OPCODE_BINARY) →
      (op = OPCODE_TEXT ∨ op = OPCODE_BINARY) →
      (processFrame cf (mkDataFrame op fin d)).2 =
        .error (.protocolErr "Illegal frame")) ∧
    (∀ (p0 plast : List Nat) (ps : List (List Nat)) (full : List ABNF),
      Interleave (fragFrames p0 ps plast) full →
      (s = true ∨ validate_utf8 (p0 ++ ps.flatten ++ plast) = true) →
      runFrames (ContinuousFrame.init false s) full =
        (ContinuousFrame.init false s,
          .ok (expectedOuts (p0 ++ ps.flatten ++ plast) full))) := by
  refine ⟨?_, ?_, ?_⟩
  · intro d fin
    simp [processFrame, ContinuousFrame.validate, ContinuousFrame.init, truthy,
      mkDataFrame, ABNF.init, OPCODE_CONT, OPCODE_TEXT, OPCODE_BINARY]
  · intro cf op fin d hrecv hop
    rcases hrecv with h1 | h1 <;> rcases hop with rfl | rfl <;>
      simp [processFrame, ContinuousFrame.validate, truthy, mkDataFrame,
        ABNF.init, OPCODE_CONT, OPCODE_TEXT, OPCODE_BINARY, h1]
  · intro p0 plast ps full hint hv
    exact runFrames_idle s hint p0 ps plast rfl hv

/-- Counterexample for C3: the fragment sequence `(TEXT, fin=0, C0)`,
`(CONT, fin=1, AF)` — whose concatenated payload `C0 AF` is not valid
UTF-8 — emits no message under the default configuration: the reassembler
raises the payload error instead, so the claim's unconditional "emits
exactly one message" fails. -/
theorem C3_reassembly_counterexample :
    fragFrames [0xC0] [] [0xAF] =
      [mkDataFrame OPCODE_TEXT 0 [0xC0], mkDataFrame OPCODE_CONT 1 [0xAF]] ∧
    validate_utf8 [0xC0, 0xAF] = false ∧
    (runFrames (ContinuousFrame.init false false)
        [mkDataFrame OPCODE_TEXT 0 [0xC0], mkDataFrame OPCODE_CONT 1 [0xAF]]).2 =
      .error (.payloadErr "cannot decode") := by decide

/-- Witness for C3's reassembly conjunct: fragments "He", "l", "lo" with a
PING interleaved yield the PING emission followed by one TEXT "Hello". -/
theorem C3_reassembly_witness :
    runFrames (ContinuousFrame.init false false)
        [mkDataFrame OPCODE_TEXT 0 [72, 101],
         ABNF.init 1 0 0 0 OPCODE_PING 0 [5] none none,
         mkDataFrame OPCODE_CONT 0 [108],
         mkDataFrame OPCODE_CONT 1 [108, 111]] =
      (ContinuousFrame.init false false,
        .ok (expectedOuts (([72, 101] : List Nat) ++
            ([[108]] : List (List Nat)).flatten ++ [108, 111])
          [mkDataFrame OPCODE_TEXT 0 [72, 101],
           ABNF.init 1 0 0 0 OPCODE_PING 0 [5] none none,
           mkDataFrame OPCODE_CONT 0 [108],
           mkDataFrame OPCODE_CONT 1 [108, 111]])) :=
  (C3_reassembly false).2.2 [72, 101] [108, 111] [[108]] _
    (Interleave.frag _ (Interleave.ctrl _ (by decide)
      (Interleave.frag _ (Interleave.frag _ Interleave.nil))))
    (Or.inr (by decide))

end OctoWS
